import Mathlib

/-!
Shallow embedding of the PBL-Nexus booking engine
(src/backend/bookings/models.py, src/backend/bookings/faculty_views.py,
src/backend/bookings/serializers.py, src/backend/bookings/views.py,
src/backend/slots/models.py, src/backend/core/subjects.py).

Timestamps are modelled as integers (seconds); timedelta(hours=8) is 28800.
Database rows are lists of records; SELECT-FOR-UPDATE row locks have no
effect in a sequential model and are dropped; the transaction.atomic
decorator is modelled by the runOp wrapper, which restores the pre-state
whenever the body raises.
-/

deriving instance DecidableEq for Except

namespace PBLNexus

/-- Booking.Status (models.py). -/
inductive BStatus
  | confirmed
  | cancelled
  | completed
  | absent
deriving DecidableEq, Repr

/-- core.models.User, restricted to the fields the booking engine reads.
An empty string models a NULL/blank pbl_user_id. -/
structure User where
  id : Nat
  role : String
  pblUserId : String
  email : String
deriving DecidableEq, Repr

/-- slots.models.Slot. -/
structure Slot where
  id : Nat
  facultyId : Nat
  subject : String
  startTime : Int
  endTime : Int
  isAvailable : Bool
  updatedAt : Int
deriving DecidableEq, Repr

/-- bookings.models.Booking. An empty groupId models the NULL/blank case. -/
structure Booking where
  id : Nat
  slotId : Nat
  studentId : Nat
  groupId : String
  status : BStatus
  cancelledAt : Option Int
  cancellationReason : String
  absentAt : Option Int
  createdAt : Int
  updatedAt : Int
deriving DecidableEq, Repr

/-- bookings.models.RebookingPermission. -/
structure RebookingPermission where
  id : Nat
  studentId : Nat
  subject : String
  teacherExternalId : String
  createdAt : Int
  updatedAt : Int
deriving DecidableEq, Repr

/-- The persisted database state.  nextId supplies fresh primary keys
(the source uses random UUIDs; a counter keeps freshness explicit). -/
structure DBState where
  users : List User
  slots : List Slot
  bookings : List Booking
  perms : List RebookingPermission
  nextId : Nat
deriving DecidableEq, Repr

/-- Error kinds; each constructor corresponds to one raise site
(ValidationError / DRF serializer error / 403 / 404) in the source. -/
inductive BErr
  | notFound
  | forbidden
  | slotUnavailable
  | slotAlreadyBooked
  | groupRequired
  | teamConflict
  | absenceLocked
  | invalidState
  | cancellationWindow
  | slotInPast
  | slotTimesInvalid
  | uniqueViolation
  | facultyNotConfigured
  | studentNotAbsent
  | invalidSubject
  | profileGroupMissing
  | groupMismatch
  | mentorsMissing
  | notAuthorized
deriving DecidableEq, Repr

/-- core.subjects.normalize_subject: Python str.strip(), i.e. drop leading
and trailing whitespace. -/
def normalize_subject (s : String) : String :=
  String.mk (((s.data.dropWhile Char.isWhitespace).reverse.dropWhile Char.isWhitespace).reverse)

/-- core.subjects.ALLOWED_SUBJECTS. -/
def ALLOWED_SUBJECTS : List String := ["Web Development", "Compiler Design"]

/-- core.subjects.is_allowed_subject. -/
def is_allowed_subject (v : String) : Bool :=
  ALLOWED_SUBJECTS.contains (normalize_subject v)

/-- Generic row lookup by a key projection (models .get / .first on a
filtered queryset keyed by a unique column). -/
def findBy {α : Type} (idOf : α → Nat) (l : List α) (i : Nat) : Option α :=
  l.find? (fun x => idOf x == i)

/-- Generic UPDATE ... WHERE key = t, as used by row.save(). -/
def replaceBy {α : Type} (idOf : α → Nat) (l : List α) (t : Nat) (a : α) : List α :=
  l.map (fun x => if idOf x == t then a else x)

def findUserL (users : List User) (uid : Nat) : Option User :=
  findBy User.id users uid

def findSlotL (slots : List Slot) (sid : Nat) : Option Slot :=
  findBy Slot.id slots sid

/-- The booking row of a slot (the reverse OneToOne accessor slot.booking). -/
def slotBookingL (bookings : List Booking) (sid : Nat) : Option Booking :=
  findBy Booking.slotId bookings sid

def findBookingL (bookings : List Booking) (bid : Nat) : Option Booking :=
  findBy Booking.id bookings bid

/-- pbl_user_id of a user id, empty when the user is missing or unset. -/
def extIdOf (users : List User) (uid : Nat) : String :=
  match findUserL users uid with
  | some u => u.pblUserId
  | none => ""

/-- Email of a user id, empty when the user is missing. -/
def emailOf (users : List User) (uid : Nat) : String :=
  match findUserL users uid with
  | some u => u.email
  | none => ""

/-- The (raw) subject of a booking's slot, as read through slot__subject. -/
def subjOf (slots : List Slot) (b : Booking) : String :=
  match findSlotL slots b.slotId with
  | some s => s.subject
  | none => ""

/-- The slot faculty's external id of a booking, slot__faculty__pbl_user_id. -/
def facultyExtOf (st : DBState) (b : Booking) : String :=
  match findSlotL st.slots b.slotId with
  | some s => extIdOf st.users s.facultyId
  | none => ""

/-- Predicate of the team-conflict queryset: Booking rows with this
group_id, slot subject equal to the normalized target subject, and
status Confirmed (create_booking, models.py lines 198-209; the queryset
also locks Absent rows, which has no effect on the check). -/
def bookingMatches (slots : List Slot) (g s : String) (b : Booking) : Bool :=
  b.status == BStatus.confirmed && b.groupId == g && subjOf slots b == s

/-- Does the slot's current booking row have status Confirmed. -/
def isConfirmedOpt (o : Option Booking) : Bool :=
  match o with
  | some e => e.status == BStatus.confirmed
  | none => false

/-- Ordering key comparison for order_by('-absent_at', '-updated_at'):
strictly later-than, with a NULL absent_at sorting last (the SQLite
fallback backend committed in settings.py; the key only matters when
several Absent rows tie). -/
def absKeyLt (a b : Booking) : Bool :=
  (match a.absentAt, b.absentAt with
   | none, none => false
   | none, some _ => true
   | some _, none => false
   | some x, some y => decide (x < y)) ||
  (a.absentAt == b.absentAt && decide (a.updatedAt < b.updatedAt))

/-- queryset.first() after order_by('-absent_at', '-updated_at'):
the first row with a maximal key. -/
def pickLatest (l : List Booking) : Option Booking :=
  l.foldl
    (fun acc b =>
      match acc with
      | none => some b
      | some a => if absKeyLt a b then some b else some a)
    none

/-- The queryset of Absent rows of this student for (subject, faculty
external id), create_booking lines 211-222. -/
def absCands (st : DBState) (studentId : Nat) (subject ext : String) : List Booking :=
  st.bookings.filter
    (fun b =>
      b.studentId == studentId && b.status == BStatus.absent &&
      subjOf st.slots b == subject && facultyExtOf st b == ext)

/-- The RebookingPermission lookup of create_booking lines 226-234. -/
def findPermL (perms : List RebookingPermission) (studentId : Nat) (subject ext : String) :
    Option RebookingPermission :=
  perms.find?
    (fun p => p.studentId == studentId && p.subject == subject && p.teacherExternalId == ext)

/-- The absence-lock test of create_booking lines 224-240: the latest
Absent row blocks unless a matching permission is at least as new as
the absence time (absent_at, falling back to updated_at). -/
def absenceBlocked (st : DBState) (studentId : Nat) (subject ext : String) : Bool :=
  match pickLatest (absCands st studentId subject ext) with
  | none => false
  | some la =>
    match findPermL st.perms studentId subject ext with
    | none => true
    | some p => decide (p.updatedAt < la.absentAt.getD la.updatedAt)

/-- Slot.clean (slots/models.py lines 59-70): end after start, start not
in the past. -/
def slotClean (now : Int) (s : Slot) : Except BErr Unit :=
  if s.endTime ≤ s.startTime then Except.error BErr.slotTimesInvalid
  else if s.startTime < now then Except.error BErr.slotInPast
  else Except.ok Unit.unit

/-- Slot.save (slots/models.py lines 72-74): full_clean then write. -/
def slotSave (now : Int) (st : DBState) (s : Slot) : Except BErr DBState :=
  match slotClean now s with
  | Except.error e => Except.error e
  | Except.ok _ => Except.ok { st with slots := replaceBy Slot.id st.slots s.id s }

/-- The reused Cancelled row of create_booking lines 242-259: student,
group, status, cancellation fields and updated_at are written, the other
fields keep their old values. -/
def reuseRow (now : Int) (studentId : Nat) (g : String) (e : Booking) : Booking :=
  { e with
    studentId := studentId, groupId := g, status := BStatus.confirmed,
    cancelledAt := none, cancellationReason := "", updatedAt := now }

/-- The freshly inserted row of create_booking lines 260-267. -/
def freshRow (now : Int) (bid slotId studentId : Nat) (g : String) : Booking :=
  { id := bid, slotId := slotId, studentId := studentId, groupId := g,
    status := BStatus.confirmed, cancelledAt := none, cancellationReason := "",
    absentAt := none, createdAt := now, updatedAt := now }

/-- Booking.create_booking (models.py lines 161-273), with the slot and
student row locks dropped (sequential model) and the final
slot.save(update_fields) going through Slot.full_clean as in the source.
An Absent or Completed row already on the slot makes the unconditional
INSERT collide with the OneToOne constraint (uniqueViolation). -/
def create_booking (now : Int) (slotId studentId : Nat) (group_id : String) (st : DBState) :
    Except BErr (DBState × Booking) :=
  match findSlotL st.slots slotId with
  | none => Except.error BErr.notFound
  | some slot =>
    match findUserL st.users studentId with
    | none => Except.error BErr.notFound
    | some _student =>
      if slot.isAvailable = false then Except.error BErr.slotUnavailable
      else if isConfirmedOpt (slotBookingL st.bookings slot.id) then
        Except.error BErr.slotAlreadyBooked
      else if group_id == "" then Except.error BErr.groupRequired
      else if st.bookings.any
          (bookingMatches st.slots group_id (normalize_subject slot.subject)) then
        Except.error BErr.teamConflict
      else if absenceBlocked st studentId (normalize_subject slot.subject)
          (extIdOf st.users slot.facultyId) then
        Except.error BErr.absenceLocked
      else
        match slotBookingL st.bookings slot.id with
        | some e =>
          if e.status == BStatus.cancelled then
            match slotSave now
                { st with bookings :=
                    replaceBy Booking.id st.bookings e.id (reuseRow now studentId group_id e) }
                { slot with isAvailable := false, updatedAt := now } with
            | Except.error err => Except.error err
            | Except.ok st2 => Except.ok (st2, reuseRow now studentId group_id e)
          else Except.error BErr.uniqueViolation
        | none =>
          match slotSave now
              { st with
                bookings := freshRow now st.nextId slot.id studentId group_id :: st.bookings,
                nextId := st.nextId + 1 }
              { slot with isAvailable := false, updatedAt := now } with
          | Except.error err => Except.error err
          | Except.ok st2 => Except.ok (st2, freshRow now st.nextId slot.id studentId group_id)

/-- Booking.can_cancel (models.py lines 140-154), evaluated against the
booking's slot: Confirmed, and now strictly before start_time minus the
8-hour window. -/
def can_cancel (now : Int) (slot : Slot) (b : Booking) : Bool :=
  b.status == BStatus.confirmed && decide (now < slot.startTime - 8 * 3600)

/-- The cancelled row written by Booking.cancel lines 288-291. -/
def cancelledRow (now : Int) (reason : String) (b : Booking) : Booking :=
  { b with
    status := BStatus.cancelled, cancelledAt := some now,
    cancellationReason := reason, updatedAt := now }

/-- Booking.cancel (models.py lines 275-297).  The final slot save runs
Slot.full_clean, as in the source. -/
def cancel (now : Int) (bookingId : Nat) (reason : String) (force : Bool) (st : DBState) :
    Except BErr (DBState × Booking) :=
  match findBookingL st.bookings bookingId with
  | none => Except.error BErr.notFound
  | some b =>
    if !(b.status == BStatus.confirmed) then Except.error BErr.invalidState
    else
      match findSlotL st.slots b.slotId with
      | none => Except.error BErr.notFound
      | some slot =>
        if !force && !(can_cancel now slot b) then Except.error BErr.cancellationWindow
        else
          match slotSave now
              { st with bookings := replaceBy Booking.id st.bookings b.id (cancelledRow now reason b) }
              { slot with isAvailable := true, updatedAt := now } with
          | Except.error e => Except.error e
          | Except.ok st2 => Except.ok (st2, cancelledRow now reason b)

/-- The Absent row written by FacultyMarkAbsentView lines 60-62. -/
def absentRow (now : Int) (b : Booking) : Booking :=
  { b with status := BStatus.absent, absentAt := some now, updatedAt := now }

/-- The absent_at backfill of FacultyMarkAbsentView lines 52-54
(absent_at is set from updated_at, which is never NULL). -/
def absentBackfillRow (now : Int) (b : Booking) : Booking :=
  { b with absentAt := some b.updatedAt, updatedAt := now }

/-- The Completed row written by FacultyMarkCompletedView lines 86-87. -/
def completedRow (now : Int) (b : Booking) : Booking :=
  { b with status := BStatus.completed, updatedAt := now }

/-- FacultyMarkAbsentView.patch (faculty_views.py lines 40-63).  The
requester must own the slot; an Absent row is handled idempotently,
backfilling absent_at from updated_at when it is missing. -/
def markAbsent (now : Int) (requesterId bookingId : Nat) (st : DBState) :
    Except BErr (DBState × Booking) :=
  match findBookingL st.bookings bookingId with
  | none => Except.error BErr.notFound
  | some b =>
    match findSlotL st.slots b.slotId with
    | none => Except.error BErr.notFound
    | some slot =>
      if !(slot.facultyId == requesterId) then Except.error BErr.forbidden
      else if b.status == BStatus.absent then
        match b.absentAt with
        | none =>
          Except.ok
            ({ st with bookings :=
                replaceBy Booking.id st.bookings b.id (absentBackfillRow now b) },
              absentBackfillRow now b)
        | some _ => Except.ok (st, b)
      else if !(b.status == BStatus.confirmed) then Except.error BErr.invalidState
      else
        Except.ok
          ({ st with bookings := replaceBy Booking.id st.bookings b.id (absentRow now b) },
            absentRow now b)

/-- FacultyMarkCompletedView.patch (faculty_views.py lines 66-88). -/
def markCompleted (now : Int) (requesterId bookingId : Nat) (st : DBState) :
    Except BErr (DBState × Booking) :=
  match findBookingL st.bookings bookingId with
  | none => Except.error BErr.notFound
  | some b =>
    match findSlotL st.slots b.slotId with
    | none => Except.error BErr.notFound
    | some slot =>
      if !(slot.facultyId == requesterId) then Except.error BErr.forbidden
      else if b.status == BStatus.completed then Except.ok (st, b)
      else if !(b.status == BStatus.confirmed) then Except.error BErr.invalidState
      else
        Except.ok
          ({ st with bookings := replaceBy Booking.id st.bookings b.id (completedRow now b) },
            completedRow now b)

/-- FacultyBookingViewSet.complete (views.py lines 255-268): the queryset
is restricted to the requesting faculty's slots (a foreign booking is a
404), and a non-Confirmed booking is rejected with no idempotent branch. -/
def viewsetComplete (now : Int) (requesterId bookingId : Nat) (st : DBState) :
    Except BErr (DBState × Booking) :=
  match findBookingL st.bookings bookingId with
  | none => Except.error BErr.notFound
  | some b =>
    match findSlotL st.slots b.slotId with
    | none => Except.error BErr.notFound
    | some slot =>
      if !(slot.facultyId == requesterId) then Except.error BErr.notFound
      else if !(b.status == BStatus.confirmed) then Except.error BErr.invalidState
      else
        Except.ok
          ({ st with bookings := replaceBy Booking.id st.bookings b.id (completedRow now b) },
            completedRow now b)

/-- Key predicate of RebookingPermission.update_or_create: the unique
(student, subject) pair (models.py lines 322-336). -/
def permKey (studentId : Nat) (subject : String) (p : RebookingPermission) : Bool :=
  p.studentId == studentId && p.subject == subject

/-- The update branch of RebookingPermission.update_or_create: the row
keyed by (student, subject) gets the new teacher_external_id and a fresh
updated_at. -/
def permUpdateRow (now : Int) (ext : String) (p : RebookingPermission) : RebookingPermission :=
  { p with teacherExternalId := ext, updatedAt := now }

/-- The create branch of RebookingPermission.update_or_create. -/
def permNewRow (now : Int) (pid studentId : Nat) (subject ext : String) : RebookingPermission :=
  { id := pid, studentId := studentId, subject := subject,
    teacherExternalId := ext, createdAt := now, updatedAt := now }

/-- The Absent-row existence check of FacultyAllowRebookingView lines
241-247: some Absent booking of this student, on a slot with this raw
subject, owned by a faculty with this external id. -/
def hasAbsentFor (st : DBState) (studentId : Nat) (subject ext : String) : Bool :=
  st.bookings.any
    (fun b =>
      b.studentId == studentId && b.status == BStatus.absent &&
      subjOf st.slots b == subject && facultyExtOf st b == ext)

/-- FacultyAllowRebookingView.post (faculty_views.py lines 213-264):
validate the subject, require the faculty external id, require the
student exist with role student, require an Absent row of this student
for (subject, this faculty), then upsert the permission keyed by
(student, subject). -/
def allowRebooking (now : Int) (requesterId studentIdArg : Nat) (subjectArg : String)
    (st : DBState) : Except BErr (DBState × RebookingPermission) :=
  if !(is_allowed_subject (normalize_subject subjectArg)) then Except.error BErr.invalidSubject
  else
    match findUserL st.users requesterId with
    | none => Except.error BErr.notFound
    | some faculty =>
      if faculty.pblUserId == "" then Except.error BErr.facultyNotConfigured
      else
        match st.users.find? (fun u => u.id == studentIdArg && u.role == "student") with
        | none => Except.error BErr.notFound
        | some student =>
          if !(hasAbsentFor st student.id (normalize_subject subjectArg) faculty.pblUserId) then
            Except.error BErr.studentNotAbsent
          else
            match st.perms.find? (permKey student.id (normalize_subject subjectArg)) with
            | some p =>
              Except.ok
                ({ st with perms := replaceBy RebookingPermission.id st.perms p.id (permUpdateRow now faculty.pblUserId p) },
                  permUpdateRow now faculty.pblUserId p)
            | none =>
              Except.ok
                ({ st with
                    perms := permNewRow now st.nextId student.id
                      (normalize_subject subjectArg) faculty.pblUserId :: st.perms,
                    nextId := st.nextId + 1 },
                  permNewRow now st.nextId student.id
                    (normalize_subject subjectArg) faculty.pblUserId)

/-- BookingCreateSerializer.validate_slot_id plus validate
(serializers.py lines 54-167): the request-layer checks run before
Booking.create_booking.  The external profile lookup result is passed in
as (profileGroupId, profileMentorEmails); on success the derived group
id to book with is returned. -/
def validateCreate (now : Int) (slotId studentId : Nat) (group_id : String)
    (profileGroupId : String) (profileMentorEmails : List String) (st : DBState) :
    Except BErr String :=
  match findSlotL st.slots slotId with
  | none => Except.error BErr.notFound
  | some slot =>
    if slot.isAvailable = false then Except.error BErr.slotUnavailable
    else if slot.startTime ≤ now then Except.error BErr.slotInPast
    else if isConfirmedOpt (slotBookingL st.bookings slot.id) then
      Except.error BErr.slotAlreadyBooked
    else
      match findUserL st.users studentId with
      | none => Except.error BErr.notFound
      | some _student =>
        if group_id == "" then Except.error BErr.groupRequired
        else if st.bookings.any
            (bookingMatches st.slots group_id (normalize_subject slot.subject)) then
          Except.error BErr.teamConflict
        else if absenceBlocked st studentId (normalize_subject slot.subject)
            (extIdOf st.users slot.facultyId) then
          Except.error BErr.absenceLocked
        else if normalize_subject profileGroupId == "" then
          Except.error BErr.profileGroupMissing
        else if !(normalize_subject group_id == normalize_subject profileGroupId) then
          Except.error BErr.groupMismatch
        else if profileMentorEmails.isEmpty then Except.error BErr.mentorsMissing
        else if !(profileMentorEmails.contains (emailOf st.users slot.facultyId)) then
          Except.error BErr.notAuthorized
        else Except.ok (normalize_subject profileGroupId)

/-- transaction.atomic: run a state-passing body; on any raised error the
transaction rolls back, leaving the persisted state untouched. -/
def runOp {α : Type} (f : DBState → Except BErr (DBState × α)) (st : DBState) :
    DBState × Except BErr α :=
  match f st with
  | Except.ok (st1, a) => (st1, Except.ok a)
  | Except.error e => (st, Except.error e)

/-- StudentBookingViewSet.create (views.py lines 56-89): serializer
validation, then Booking.create_booking with the derived group id. -/
def apiCreate (now : Int) (slotId studentId : Nat) (group_id : String)
    (profileGroupId : String) (profileMentorEmails : List String) (st : DBState) :
    DBState × Except BErr Booking :=
  match validateCreate now slotId studentId group_id profileGroupId profileMentorEmails st with
  | Except.error e => (st, Except.error e)
  | Except.ok derived => runOp (create_booking now slotId studentId derived) st

/-! Lemmas about the generic row operations. -/

theorem findBy_mem {α : Type} {idOf : α → Nat} {l : List α} {i : Nat} {b : α}
    (h : findBy idOf l i = some b) : b ∈ l :=
  List.mem_of_find?_eq_some h

theorem findBy_key {α : Type} {idOf : α → Nat} {l : List α} {i : Nat} {b : α}
    (h : findBy idOf l i = some b) : idOf b = i := by
  have := List.find?_some h
  simpa using this

theorem replaceBy_eq_self {α : Type} {idOf : α → Nat} {l : List α} {t : Nat} {a : α}
    (h : ∀ x ∈ l, idOf x ≠ t) : replaceBy idOf l t a = l := by
  induction l with
  | nil => rfl
  | cons c cs ih =>
    have hc : idOf c ≠ t := h c (List.mem_cons_self c cs)
    have ih' := ih (fun x hx => h x (List.mem_cons_of_mem c hx))
    simp [replaceBy, List.map] at ih' ⊢
    exact ⟨by simp [hc], ih'⟩

theorem mem_replaceBy {α : Type} {idOf : α → Nat} {l : List α} {t : Nat} {a x : α}
    (h : x ∈ replaceBy idOf l t a) : x ∈ l ∨ x = a := by
  unfold replaceBy at h
  rcases List.mem_map.1 h with ⟨y, hy, hxy⟩
  by_cases hc : (idOf y == t) = true
  · right
    rw [if_pos hc] at hxy
    exact hxy.symm
  · left
    rw [if_neg hc] at hxy
    exact hxy ▸ hy

theorem map_replaceBy {α : Type} {idOf : α → Nat} {l : List α} {t : Nat} {a : α}
    (hid : idOf a = t) : (replaceBy idOf l t a).map idOf = l.map idOf := by
  induction l with
  | nil => rfl
  | cons c cs ih =>
    by_cases hc : idOf c = t
    · simp [replaceBy, List.map, hc, hid] at ih ⊢; exact ih
    · simp [replaceBy, List.map, hc] at ih ⊢; exact ih

theorem findBy_replaceBy {α : Type} {idOf : α → Nat} {l : List α} {i : Nat} {b a : α}
    (h : findBy idOf l i = some b) (hid : idOf a = idOf b) :
    findBy idOf (replaceBy idOf l (idOf b) a) i = some a := by
  have hkey : idOf b = i := findBy_key h
  induction l with
  | nil => simp [findBy] at h
  | cons c cs ih =>
    by_cases hc : idOf c = i
    · have hcb : c = b := by
        have : findBy idOf (c :: cs) i = some c := by
          simp [findBy, List.find?_cons_of_pos, hc]
        rw [this] at h; exact Option.some.inj h
      simp [replaceBy, findBy, List.map, hcb, hkey, List.find?_cons_of_pos, hid]
    · have hstep : findBy idOf (c :: cs) i = findBy idOf cs i := by
        simp [findBy, List.find?_cons_of_neg, hc]
      rw [hstep] at h
      have hcb : idOf c ≠ idOf b := fun hq => hc (hq.trans hkey)
      have ih' := ih h
      simpa [replaceBy, findBy, List.map, hcb, List.find?_cons_of_neg, hc] using ih'

theorem countP_replaceBy {α : Type} {idOf : α → Nat} {l : List α} {e a : α}
    {p : α → Bool}
    (hmem : e ∈ l) (hnd : (l.map idOf).Nodup) :
    (replaceBy idOf l (idOf e) a).countP p + (if p e then 1 else 0)
      = l.countP p + (if p a then 1 else 0) := by
  induction l with
  | nil => simp at hmem
  | cons c cs ih =>
    rw [List.map_cons, List.nodup_cons] at hnd
    rcases List.mem_cons.1 hmem with hec | hec
    · subst hec
      have htail : replaceBy idOf cs (idOf e) a = cs := by
        refine replaceBy_eq_self (fun x hx hxe => ?_)
        exact hnd.1 (hxe ▸ List.mem_map_of_mem idOf hx)
      have hexp : replaceBy idOf (e :: cs) (idOf e) a = a :: cs := by
        unfold replaceBy at htail ⊢
        rw [List.map_cons, htail]
        simp
      rw [hexp, List.countP_cons, List.countP_cons]
      omega
    · have hce : idOf c ≠ idOf e := by
        intro hq
        exact hnd.1 (hq ▸ List.mem_map_of_mem idOf hec)
      have ih' := ih hec hnd.2
      have hexp : replaceBy idOf (c :: cs) (idOf e) a = c :: replaceBy idOf cs (idOf e) a := by
        unfold replaceBy
        rw [List.map_cons]
        congr 1
        simp [hce]
      rw [hexp, List.countP_cons, List.countP_cons]
      omega

theorem findBy_map_replaceBy {α β : Type} {idOf : α → Nat} {f : α → β} {l : List α}
    {t : Nat} {a : α} {i : Nat}
    (hid : idOf a = t) (hf : ∀ x ∈ l, idOf x = t → f x = f a) :
    (findBy idOf (replaceBy idOf l t a) i).map f = (findBy idOf l i).map f := by
  induction l with
  | nil => rfl
  | cons c cs ih =>
    have ih' := ih (fun x hx => hf x (List.mem_cons_of_mem c hx))
    by_cases hc : idOf c = t
    · have hhead : replaceBy idOf (c :: cs) t a = a :: replaceBy idOf cs t a := by
        unfold replaceBy
        rw [List.map_cons]
        congr 1
        simp [hc]
      rw [hhead]
      by_cases hi : idOf c = i
      · have hai : idOf a = i := by rw [hid, ← hc, hi]
        simp [findBy, List.find?_cons_of_pos, hi, hai,
          hf c (List.mem_cons_self c cs) hc]
      · have hai : idOf a ≠ i := by rw [hid, ← hc]; exact hi
        simpa [findBy, List.find?_cons_of_neg, hi, hai] using ih'
    · have hhead : replaceBy idOf (c :: cs) t a = c :: replaceBy idOf cs t a := by
        unfold replaceBy
        rw [List.map_cons]
        congr 1
        simp [hc]
      rw [hhead]
      by_cases hi : idOf c = i
      · simp [findBy, List.find?_cons_of_pos, hi]
      · simpa [findBy, List.find?_cons_of_neg, hi] using ih'

theorem subjOf_eq (slots : List Slot) (b : Booking) :
    subjOf slots b = ((findSlotL slots b.slotId).map Slot.subject).getD "" := by
  unfold subjOf
  cases findSlotL slots b.slotId <;> simp

theorem subjOf_replaceSlot {slots : List Slot} {t : Nat} {a : Slot} {b : Booking}
    (hid : a.id = t) (hsub : ∀ s ∈ slots, s.id = t → s.subject = a.subject) :
    subjOf (replaceBy Slot.id slots t a) b = subjOf slots b := by
  rw [subjOf_eq, subjOf_eq]
  unfold findSlotL
  rw [findBy_map_replaceBy hid hsub]

theorem two_le_length_of_mem_ne {α : Type} {l : List α} {a b : α}
    (ha : a ∈ l) (hb : b ∈ l) (hab : a ≠ b) : 2 ≤ l.length := by
  induction l with
  | nil => simp at ha
  | cons c cs ih =>
    rcases List.mem_cons.1 ha with hac | hac
    · subst hac
      rcases List.mem_cons.1 hb with hbc | hbc
      · exact absurd hbc.symm hab
      · have : 1 ≤ cs.length := List.length_pos.2 (List.ne_nil_of_mem hbc)
        simp [List.length_cons]; omega
    · have : 1 ≤ cs.length := List.length_pos.2 (List.ne_nil_of_mem hac)
      simp [List.length_cons]; omega

/-! Shape lemmas: what a successful operation did to the state. -/

theorem slotSave_ok {now : Int} {st st2 : DBState} {s : Slot}
    (h : slotSave now st s = Except.ok st2) :
    st2 = { st with slots := replaceBy Slot.id st.slots s.id s } ∧
      s.startTime < s.endTime ∧ now ≤ s.startTime := by
  unfold slotSave slotClean at h
  split at h
  · exact absurd h (by simp)
  next st' heq =>
    split at heq
    · exact absurd heq (by simp)
    · split at heq
      · exact absurd heq (by simp)
      next h1 h2 =>
        refine ⟨?_, by omega, by omega⟩
        cases heq
        exact (Option.some.inj (by simpa using h)).symm ▸ rfl

theorem create_ok_shape {now : Int} {slotId studentId : Nat} {g : String}
    {st st1 : DBState} {bk : Booking}
    (h : create_booking now slotId studentId g st = Except.ok (st1, bk)) :
    ∃ slot, findSlotL st.slots slotId = some slot ∧
      slot.isAvailable = true ∧
      isConfirmedOpt (slotBookingL st.bookings slot.id) = false ∧
      (g == "") = false ∧
      st.bookings.any (bookingMatches st.slots g (normalize_subject slot.subject)) = false ∧
      absenceBlocked st studentId (normalize_subject slot.subject)
        (extIdOf st.users slot.facultyId) = false ∧
      slot.startTime < slot.endTime ∧ now ≤ slot.startTime ∧
      st1.slots = replaceBy Slot.id st.slots slot.id
        { slot with isAvailable := false, updatedAt := now } ∧
      st1.users = st.users ∧ st1.perms = st.perms ∧
      ((∃ e, slotBookingL st.bookings slot.id = some e ∧ e.status = BStatus.cancelled ∧
          bk = reuseRow now studentId g e ∧
          st1.bookings = replaceBy Booking.id st.bookings e.id bk ∧
          st1.nextId = st.nextId) ∨
        (slotBookingL st.bookings slot.id = none ∧
          bk = freshRow now st.nextId slot.id studentId g ∧
          st1.bookings = bk :: st.bookings ∧ st1.nextId = st.nextId + 1)) := by
  unfold create_booking at h
  split at h
  · exact absurd h (by simp)
  next slot hslot =>
    split at h
    · exact absurd h (by simp)
    next _u _huser =>
      split at h
      · exact absurd h (by simp)
      next hav =>
        split at h
        · exact absurd h (by simp)
        next hconf =>
          split at h
          · exact absurd h (by simp)
          next hg =>
            split at h
            · exact absurd h (by simp)
            next htc =>
              split at h
              · exact absurd h (by simp)
              next habs =>
                refine ⟨slot, hslot, by simpa using hav, by simpa using hconf,
                  by simpa using hg, by simpa using htc, by simpa using habs, ?_⟩
                split at h
                next e hebk =>
                  split at h
                  next hcanc =>
                    split at h
                    · exact absurd h (by simp)
                    next st2 hsave =>
                      obtain ⟨hst2, hbk⟩ := Prod.mk.injEq .. ▸ (Except.ok.inj h)
                      subst hst2
                      obtain ⟨hst1, hlt, hle⟩ := slotSave_ok hsave
                      subst hst1
                      refine ⟨hlt, hle, rfl, rfl, rfl,
                        Or.inl ⟨e, hebk, by simpa using hcanc, hbk.symm, by rw [hbk], rfl⟩⟩
                  · exact absurd h (by simp)
                next hebk =>
                  split at h
                  · exact absurd h (by simp)
                  next st2 hsave =>
                    obtain ⟨hst2, hbk⟩ := Prod.mk.injEq .. ▸ (Except.ok.inj h)
                    subst hst2
                    obtain ⟨hst1, hlt, hle⟩ := slotSave_ok hsave
                    subst hst1
                    exact ⟨hlt, hle, rfl, rfl, rfl,
                      Or.inr ⟨hebk, hbk.symm, by rw [hbk], rfl⟩⟩

theorem cancel_ok_shape {now : Int} {bid : Nat} {r : String} {force : Bool}
    {st st1 : DBState} {bk : Booking}
    (h : cancel now bid r force st = Except.ok (st1, bk)) :
    ∃ b slot, findBookingL st.bookings bid = some b ∧ b.status = BStatus.confirmed ∧
      findSlotL st.slots b.slotId = some slot ∧
      (!force && !(can_cancel now slot b)) = false ∧
      slot.startTime < slot.endTime ∧ now ≤ slot.startTime ∧
      bk = cancelledRow now r b ∧
      st1.bookings = replaceBy Booking.id st.bookings b.id bk ∧
      st1.slots = replaceBy Slot.id st.slots slot.id
        { slot with isAvailable := true, updatedAt := now } ∧
      st1.users = st.users ∧ st1.perms = st.perms ∧ st1.nextId = st.nextId := by
  unfold cancel at h
  split at h
  · exact absurd h (by simp)
  next b hb =>
    split at h
    · exact absurd h (by simp)
    next hst =>
      split at h
      · exact absurd h (by simp)
      next slot hslot =>
        split at h
        · exact absurd h (by simp)
        next hwin =>
          split at h
          · exact absurd h (by simp)
          next st2 hsave =>
            obtain ⟨hst2, hbk⟩ := Prod.mk.injEq .. ▸ (Except.ok.inj h)
            subst hst2
            obtain ⟨hst1, hlt, hle⟩ := slotSave_ok hsave
            subst hst1
            exact ⟨b, slot, hb, by simpa using hst, hslot, by simpa using hwin,
              hlt, hle, hbk.symm, by rw [hbk], rfl, rfl, rfl, rfl⟩

theorem markAbsent_ok_shape {now : Int} {requesterId bid : Nat}
    {st st1 : DBState} {bk : Booking}
    (h : markAbsent now requesterId bid st = Except.ok (st1, bk)) :
    ∃ b slot, findBookingL st.bookings bid = some b ∧
      findSlotL st.slots b.slotId = some slot ∧ slot.facultyId = requesterId ∧
      st1.slots = st.slots ∧ st1.users = st.users ∧ st1.perms = st.perms ∧
      st1.nextId = st.nextId ∧
      bk.status = BStatus.absent ∧ bk.absentAt.isSome = true ∧
      bk.id = b.id ∧ bk.slotId = b.slotId ∧
      ((b.status = BStatus.absent ∧ b.absentAt = none ∧ bk = absentBackfillRow now b ∧
          st1.bookings = replaceBy Booking.id st.bookings b.id bk) ∨
        (b.status = BStatus.absent ∧ b.absentAt.isSome = true ∧ bk = b ∧ st1 = st) ∨
        (b.status = BStatus.confirmed ∧ bk = absentRow now b ∧
          st1.bookings = replaceBy Booking.id st.bookings b.id bk)) := by
  unfold markAbsent at h
  split at h
  · exact absurd h (by simp)
  next b hb =>
    split at h
    · exact absurd h (by simp)
    next slot hslot =>
      split at h
      · exact absurd h (by simp)
      next hfac =>
        have hfac' : slot.facultyId = requesterId := by simpa using hfac
        split at h
        next habs =>
          have habs' : b.status = BStatus.absent := by simpa using habs
          split at h
          next hnone =>
            obtain ⟨hst1, hbk⟩ := Prod.mk.injEq .. ▸ (Except.ok.inj h)
            refine ⟨b, slot, hb, hslot, hfac', by rw [← hst1], by rw [← hst1],
              by rw [← hst1], by rw [← hst1], ?_, ?_, ?_, ?_,
              Or.inl ⟨habs', hnone, hbk.symm, by rw [← hst1, hbk]⟩⟩
            · rw [← hbk]; simpa [absentBackfillRow] using habs'
            · rw [← hbk]; simp [absentBackfillRow]
            · rw [← hbk]; simp [absentBackfillRow]
            · rw [← hbk]; simp [absentBackfillRow]
          next t hsome =>
            obtain ⟨hst1, hbk⟩ := Prod.mk.injEq .. ▸ (Except.ok.inj h)
            refine ⟨b, slot, hb, hslot, hfac', by rw [← hst1], by rw [← hst1],
              by rw [← hst1], by rw [← hst1], by rw [← hbk]; exact habs',
              by rw [← hbk]; simp [hsome], by rw [← hbk], by rw [← hbk],
              Or.inr (Or.inl ⟨habs', by simp [hsome], hbk.symm, hst1.symm⟩)⟩
        next habs =>
          split at h
          · exact absurd h (by simp)
          next hconf =>
            have hconf' : b.status = BStatus.confirmed := by simpa using hconf
            obtain ⟨hst1, hbk⟩ := Prod.mk.injEq .. ▸ (Except.ok.inj h)
            refine ⟨b, slot, hb, hslot, hfac', by rw [← hst1], by rw [← hst1],
              by rw [← hst1], by rw [← hst1], ?_, ?_, ?_, ?_,
              Or.inr (Or.inr ⟨hconf', hbk.symm, by rw [← hst1, hbk]⟩)⟩
            · rw [← hbk]; simp [absentRow]
            · rw [← hbk]; simp [absentRow]
            · rw [← hbk]; simp [absentRow]
            · rw [← hbk]; simp [absentRow]

theorem markCompleted_ok_shape {now : Int} {requesterId bid : Nat}
    {st st1 : DBState} {bk : Booking}
    (h : markCompleted now requesterId bid st = Except.ok (st1, bk)) :
    ∃ b slot, findBookingL st.bookings bid = some b ∧
      findSlotL st.slots b.slotId = some slot ∧ slot.facultyId = requesterId ∧
      st1.slots = st.slots ∧ st1.users = st.users ∧ st1.perms = st.perms ∧
      st1.nextId = st.nextId ∧
      bk.status = BStatus.completed ∧ bk.id = b.id ∧ bk.slotId = b.slotId ∧
      ((b.status = BStatus.completed ∧ bk = b ∧ st1 = st) ∨
        (b.status = BStatus.confirmed ∧ bk = completedRow now b ∧
          st1.bookings = replaceBy Booking.id st.bookings b.id bk)) := by
  unfold markCompleted at h
  split at h
  · exact absurd h (by simp)
  next b hb =>
    split at h
    · exact absurd h (by simp)
    next slot hslot =>
      split at h
      · exact absurd h (by simp)
      next hfac =>
        have hfac' : slot.facultyId = requesterId := by simpa using hfac
        split at h
        next hcomp =>
          have hcomp' : b.status = BStatus.completed := by simpa using hcomp
          obtain ⟨hst1, hbk⟩ := Prod.mk.injEq .. ▸ (Except.ok.inj h)
          exact ⟨b, slot, hb, hslot, hfac', by rw [← hst1], by rw [← hst1],
            by rw [← hst1], by rw [← hst1], by rw [← hbk]; exact hcomp',
            by rw [← hbk], by rw [← hbk],
            Or.inl ⟨hcomp', hbk.symm, hst1.symm⟩⟩
        next hcomp =>
          split at h
          · exact absurd h (by simp)
          next hconf =>
            have hconf' : b.status = BStatus.confirmed := by simpa using hconf
            obtain ⟨hst1, hbk⟩ := Prod.mk.injEq .. ▸ (Except.ok.inj h)
            refine ⟨b, slot, hb, hslot, hfac', by rw [← hst1], by rw [← hst1],
              by rw [← hst1], by rw [← hst1], ?_, ?_, ?_,
              Or.inr ⟨hconf', hbk.symm, by rw [← hst1, hbk]⟩⟩
            · rw [← hbk]; simp [completedRow]
            · rw [← hbk]; simp [completedRow]
            · rw [← hbk]; simp [completedRow]

theorem viewsetComplete_ok_shape {now : Int} {requesterId bid : Nat}
    {st st1 : DBState} {bk : Booking}
    (h : viewsetComplete now requesterId bid st = Except.ok (st1, bk)) :
    ∃ b slot, findBookingL st.bookings bid = some b ∧
      findSlotL st.slots b.slotId = some slot ∧ slot.facultyId = requesterId ∧
      st1.slots = st.slots ∧ st1.users = st.users ∧ st1.perms = st.perms ∧
      st1.nextId = st.nextId ∧
      b.status = BStatus.confirmed ∧ bk = completedRow now b ∧
      st1.bookings = replaceBy Booking.id st.bookings b.id bk := by
  unfold viewsetComplete at h
  split at h
  · exact absurd h (by simp)
  next b hb =>
    split at h
    · exact absurd h (by simp)
    next slot hslot =>
      split at h
      · exact absurd h (by simp)
      next hfac =>
        split at h
        · exact absurd h (by simp)
        next hconf =>
          obtain ⟨hst1, hbk⟩ := Prod.mk.injEq .. ▸ (Except.ok.inj h)
          exact ⟨b, slot, hb, hslot, by simpa using hfac, by rw [← hst1],
            by rw [← hst1], by rw [← hst1], by rw [← hst1],
            by simpa using hconf, hbk.symm, by rw [← hst1, hbk]⟩

/-! State invariant and reachability (claim C2). -/

/-- Number of Confirmed bookings of a (team, subject) pair. -/
def confirmedCount (st : DBState) (g subj : String) : Nat :=
  st.bookings.countP (bookingMatches st.slots g subj)

/-- Well-formedness of a database state: slot subjects are stored
normalized (slot creation derives them from ALLOWED_SUBJECTS), primary
keys are unique and below the fresh-id counter, and the team/subject
exclusivity holds. -/
def Inv (st : DBState) : Prop :=
  (∀ s ∈ st.slots, normalize_subject s.subject = s.subject) ∧
  (st.slots.map Slot.id).Nodup ∧
  (st.bookings.map Booking.id).Nodup ∧
  (∀ b ∈ st.bookings, b.id < st.nextId) ∧
  ∀ g subj, confirmedCount st g subj ≤ 1

/-- One request against the booking engine: create, cancel, mark-absent
or mark-completed (both exposed completion endpoints), each running in
its own transaction. -/
inductive Step : DBState → DBState → Prop
  | create (now : Int) (slotId studentId : Nat) (g : String) (st : DBState) :
      Step st (runOp (create_booking now slotId studentId g) st).1
  | cancelB (now : Int) (bid : Nat) (r : String) (force : Bool) (st : DBState) :
      Step st (runOp (cancel now bid r force) st).1
  | absentB (now : Int) (fid bid : Nat) (st : DBState) :
      Step st (runOp (markAbsent now fid bid) st).1
  | completeB (now : Int) (fid bid : Nat) (st : DBState) :
      Step st (runOp (markCompleted now fid bid) st).1
  | completeVS (now : Int) (fid bid : Nat) (st : DBState) :
      Step st (runOp (viewsetComplete now fid bid) st).1

/-- Reachability by any sequence of booking-engine requests. -/
inductive Reachable : DBState → DBState → Prop
  | refl (st : DBState) : Reachable st st
  | tail {st1 st2 st3 : DBState} : Reachable st1 st2 → Step st2 st3 → Reachable st1 st3

theorem bookingMatches_replaceSlot {slots : List Slot} {t : Nat} {a : Slot}
    {g subj : String} {b : Booking}
    (hid : a.id = t) (hsub : ∀ s ∈ slots, s.id = t → s.subject = a.subject) :
    bookingMatches (replaceBy Slot.id slots t a) g subj b = bookingMatches slots g subj b := by
  unfold bookingMatches
  rw [subjOf_replaceSlot hid hsub]

theorem bookingMatches_false_of_not_confirmed {slots : List Slot} {g subj : String}
    {b : Booking} (h : b.status ≠ BStatus.confirmed) :
    bookingMatches slots g subj b = false := by
  unfold bookingMatches
  have hb : (b.status == BStatus.confirmed) = false := beq_eq_false_iff_ne.2 h
  rw [hb]
  simp

/-- Replacing a booking row by a non-Confirmed row, keeping the slot
table, preserves the invariant. -/
theorem inv_replace_nonconfirmed {st : DBState} {b bk : Booking}
    (hinv : Inv st) (hmem : b ∈ st.bookings) (hid : bk.id = b.id)
    (hnc : bk.status ≠ BStatus.confirmed) :
    Inv { st with bookings := replaceBy Booking.id st.bookings b.id bk } := by
  obtain ⟨hns, hsnd, hbnd, hfresh, hcnt⟩ := hinv
  refine ⟨hns, hsnd, ?_, ?_, ?_⟩
  · show ((replaceBy Booking.id st.bookings b.id bk).map Booking.id).Nodup
    rw [map_replaceBy hid]
    exact hbnd
  · intro x hx
    rcases mem_replaceBy hx with hx' | hx'
    · exact hfresh x hx'
    · subst hx'; rw [hid]; exact hfresh b hmem
  · intro g subj
    show (replaceBy Booking.id st.bookings b.id bk).countP (bookingMatches st.slots g subj) ≤ 1
    have hrepl := @countP_replaceBy _ Booking.id st.bookings b bk
      (bookingMatches st.slots g subj) hmem hbnd
    have hbkf : bookingMatches st.slots g subj bk = false :=
      bookingMatches_false_of_not_confirmed hnc
    rw [hbkf] at hrepl
    simp at hrepl
    have := hcnt g subj
    unfold confirmedCount at this
    omega

theorem inv_step {st st2 : DBState} (hinv : Inv st) (hstep : Step st st2) : Inv st2 := by
  cases hstep with
  | create now slotId studentId g st =>
    unfold runOp
    cases hc : create_booking now slotId studentId g st with
    | error e => simpa using hinv
    | ok p =>
      obtain ⟨st1, bk⟩ := p
      simp only
      obtain ⟨slot, hslot, hav, hconf, hg, htc, habs, hlt, hle, hslots, husers, hperms,
        hwrite⟩ := create_ok_shape hc
      obtain ⟨hns, hsnd, hbnd, hfresh, hcnt⟩ := hinv
      have hslotmem : slot ∈ st.slots := findBy_mem hslot
      have hslotid : slot.id = slotId := findBy_key hslot
      have hsub : ∀ s ∈ st.slots, s.id = slot.id →
          s.subject = Slot.subject { slot with isAvailable := false, updatedAt := now } := by
        intro s hs hsid
        have : s = slot := List.inj_on_of_nodup_map hsnd hs hslotmem hsid
        rw [this]
      have hmatch : ∀ g' subj' b,
          bookingMatches st1.slots g' subj' b = bookingMatches st.slots g' subj' b := by
        intro g' subj' b
        rw [hslots]
        exact bookingMatches_replaceSlot rfl hsub
      have hnormslot : normalize_subject slot.subject = slot.subject := hns slot hslotmem
      have hsubjbk : ∀ bkk : Booking, bkk.slotId = slot.id →
          subjOf st.slots bkk = slot.subject := by
        intro bkk hbs
        rw [subjOf_eq, hbs, hslotid, hslot]
        rfl
      -- slot-side components
      have hns1 : ∀ s ∈ st1.slots, normalize_subject s.subject = s.subject := by
        intro s hs
        rw [hslots] at hs
        rcases mem_replaceBy hs with hs' | hs'
        · exact hns s hs'
        · subst hs'
          exact hnormslot
      have hids : Slot.id { slot with isAvailable := false, updatedAt := now } = slot.id := rfl
      have hsnd1 : (st1.slots.map Slot.id).Nodup := by
        rw [hslots, map_replaceBy hids]
        exact hsnd
      have hcnt0 : confirmedCount st g slot.subject = 0 := by
        unfold confirmedCount
        rw [List.countP_eq_zero]
        intro a ha hpa
        rw [hnormslot] at htc
        have : st.bookings.any (bookingMatches st.slots g slot.subject) = true :=
          List.any_eq_true.2 ⟨a, ha, hpa⟩
        rw [htc] at this
        cases this
      rcases hwrite with ⟨e, hebk, hecanc, hbk, hbks, hnext⟩ | ⟨hebk, hbk, hbks, hnext⟩
      · -- reuse of the cancelled row
        have hemem : e ∈ st.bookings := findBy_mem hebk
        have heslot : e.slotId = slot.id := findBy_key hebk
        have hbkid : bk.id = e.id := by rw [hbk]; rfl
        refine ⟨hns1, hsnd1, ?_, ?_, ?_⟩
        · rw [hbks, map_replaceBy hbkid]
          exact hbnd
        · intro x hx
          rw [hbks] at hx
          rw [hnext]
          rcases mem_replaceBy hx with hx' | hx'
          · exact hfresh x hx'
          · subst hx'; rw [hbkid]; exact hfresh e hemem
        · intro g' subj'
          unfold confirmedCount
          rw [List.countP_congr (fun x _ => by rw [hmatch g' subj' x]), hbks]
          have hrepl := @countP_replaceBy _ Booking.id st.bookings e bk
            (bookingMatches st.slots g' subj') hemem hbnd
          have hef : bookingMatches st.slots g' subj' e = false :=
            bookingMatches_false_of_not_confirmed (by rw [hecanc]; simp)
          rw [hef] at hrepl
          simp at hrepl
          by_cases hpbk : bookingMatches st.slots g' subj' bk = true
          · have hsplit : g' = g ∧ subj' = slot.subject := by
              unfold bookingMatches at hpbk
              have hbkslot : bk.slotId = slot.id := by rw [hbk]; exact heslot
              rw [hsubjbk bk hbkslot] at hpbk
              have hbg : bk.groupId = g := by rw [hbk]; rfl
              rw [hbg] at hpbk
              simp only [Bool.and_eq_true, beq_iff_eq] at hpbk
              exact ⟨hpbk.1.2.symm, hpbk.2.symm⟩
            obtain ⟨hg', hsubj'⟩ := hsplit
            subst hg' hsubj'
            have := hcnt0
            unfold confirmedCount at this
            rw [hpbk] at hrepl
            simp at hrepl
            omega
          · rw [Bool.not_eq_true] at hpbk
            rw [hpbk] at hrepl
            simp at hrepl
            have := hcnt g' subj'
            unfold confirmedCount at this
            omega
      · -- fresh insert
        have hbkid : bk.id = st.nextId := by rw [hbk]; rfl
        refine ⟨hns1, hsnd1, ?_, ?_, ?_⟩
        · rw [hbks, List.map_cons, List.nodup_cons]
          refine ⟨?_, hbnd⟩
          intro hmem
          rcases List.mem_map.1 hmem with ⟨x, hx, hxid⟩
          have := hfresh x hx
          rw [hbkid] at hxid
          omega
        · intro x hx
          rw [hbks] at hx
          rw [hnext]
          rcases List.mem_cons.1 hx with hx' | hx'
          · subst hx'; rw [hbkid]; omega
          · have := hfresh x hx'; omega
        · intro g' subj'
          unfold confirmedCount
          rw [List.countP_congr (fun x _ => by rw [hmatch g' subj' x]), hbks,
            List.countP_cons]
          by_cases hpbk : bookingMatches st.slots g' subj' bk = true
          · have hsplit : g' = g ∧ subj' = slot.subject := by
              unfold bookingMatches at hpbk
              have hbkslot : bk.slotId = slot.id := by rw [hbk]; rfl
              rw [hsubjbk bk hbkslot] at hpbk
              have hbg : bk.groupId = g := by rw [hbk]; rfl
              rw [hbg] at hpbk
              simp only [Bool.and_eq_true, beq_iff_eq] at hpbk
              exact ⟨hpbk.1.2.symm, hpbk.2.symm⟩
            obtain ⟨hg', hsubj'⟩ := hsplit
            subst hg' hsubj'
            have := hcnt0
            unfold confirmedCount at this
            rw [if_pos hpbk]
            omega
          · have hneg : ¬(bookingMatches st.slots g' subj' bk = true) := by
              simp [hpbk]
            rw [if_neg hneg]
            have := hcnt g' subj'
            unfold confirmedCount at this
            omega
  | cancelB now bid r force st =>
    unfold runOp
    cases hc : cancel now bid r force st with
    | error e => simpa using hinv
    | ok p =>
      obtain ⟨st1, bk⟩ := p
      simp only
      obtain ⟨b, slot, hb, hst, hslot, hwin, hlt, hle, hbk, hbks, hslots, husers,
        hperms, hnext⟩ := cancel_ok_shape hc
      obtain ⟨hns, hsnd, hbnd, hfresh, hcnt⟩ := hinv
      have hslotmem : slot ∈ st.slots := findBy_mem hslot
      have hbmem : b ∈ st.bookings := findBy_mem hb
      have hsub : ∀ s ∈ st.slots, s.id = slot.id →
          s.subject = Slot.subject { slot with isAvailable := true, updatedAt := now } := by
        intro s hs hsid
        have : s = slot := List.inj_on_of_nodup_map hsnd hs hslotmem hsid
        rw [this]
      have hmatch : ∀ g' subj' x,
          bookingMatches st1.slots g' subj' x = bookingMatches st.slots g' subj' x := by
        intro g' subj' x
        rw [hslots]
        exact bookingMatches_replaceSlot rfl hsub
      have hbkid : bk.id = b.id := by rw [hbk]; rfl
      refine ⟨?_, ?_, ?_, ?_, ?_⟩
      · intro s hs
        rw [hslots] at hs
        rcases mem_replaceBy hs with hs' | hs'
        · exact hns s hs'
        · subst hs'
          exact hns slot hslotmem
      · have hids : Slot.id { slot with isAvailable := true, updatedAt := now } = slot.id := rfl
        rw [hslots, map_replaceBy hids]
        exact hsnd
      · rw [hbks, map_replaceBy hbkid]
        exact hbnd
      · intro x hx
        rw [hbks] at hx
        rw [hnext]
        rcases mem_replaceBy hx with hx' | hx'
        · exact hfresh x hx'
        · subst hx'; rw [hbkid]; exact hfresh b hbmem
      · intro g' subj'
        unfold confirmedCount
        rw [List.countP_congr (fun x _ => by rw [hmatch g' subj' x]), hbks]
        have hrepl := @countP_replaceBy _ Booking.id st.bookings b bk
          (bookingMatches st.slots g' subj') hbmem hbnd
        have hbkf : bookingMatches st.slots g' subj' bk = false :=
          bookingMatches_false_of_not_confirmed (by rw [hbk]; simp [cancelledRow])
        rw [hbkf] at hrepl
        simp at hrepl
        have := hcnt g' subj'
        unfold confirmedCount at this
        omega
  | absentB now fid bid st =>
    unfold runOp
    cases hc : markAbsent now fid bid st with
    | error e => simpa using hinv
    | ok p =>
      obtain ⟨st1, bk⟩ := p
      simp only
      obtain ⟨b, slot, hb, hslot, hfac, hslots, husers, hperms, hnext, hbkst, hbksome,
        hbkid, hbkslot, hwrite⟩ := markAbsent_ok_shape hc
      have hst1 : st1 = { st with bookings := st1.bookings, nextId := st.nextId } := by
        cases st1
        simp_all
      rcases hwrite with ⟨hbst, hbnone, hbk, hbks⟩ | ⟨hbst, hbsome, hbk, hbks⟩ |
        ⟨hbst, hbk, hbks⟩
      · rw [hst1, hbks]
        exact inv_replace_nonconfirmed hinv (findBy_mem hb) hbkid (by rw [hbkst]; simp)
      · rw [hbks]
        exact hinv
      · rw [hst1, hbks]
        exact inv_replace_nonconfirmed hinv (findBy_mem hb) hbkid (by rw [hbkst]; simp)
  | completeB now fid bid st =>
    unfold runOp
    cases hc : markCompleted now fid bid st with
    | error e => simpa using hinv
    | ok p =>
      obtain ⟨st1, bk⟩ := p
      simp only
      obtain ⟨b, slot, hb, hslot, hfac, hslots, husers, hperms, hnext, hbkst,
        hbkid, hbkslot, hwrite⟩ := markCompleted_ok_shape hc
      have hst1 : st1 = { st with bookings := st1.bookings, nextId := st.nextId } := by
        cases st1
        simp_all
      rcases hwrite with ⟨hbst, hbk, hbks⟩ | ⟨hbst, hbk, hbks⟩
      · rw [hbks]
        exact hinv
      · rw [hst1, hbks]
        exact inv_replace_nonconfirmed hinv (findBy_mem hb) hbkid (by rw [hbkst]; simp)
  | completeVS now fid bid st =>
    unfold runOp
    cases hc : viewsetComplete now fid bid st with
    | error e => simpa using hinv
    | ok p =>
      obtain ⟨st1, bk⟩ := p
      simp only
      obtain ⟨b, slot, hb, hslot, hfac, hslots, husers, hperms, hnext, hbst, hbk,
        hbks⟩ := viewsetComplete_ok_shape hc
      have hst1 : st1 = { st with bookings := st1.bookings, nextId := st.nextId } := by
        cases st1
        simp_all
      rw [hst1, hbks]
      have hbkid : bk.id = b.id := by rw [hbk]; rfl
      exact inv_replace_nonconfirmed hinv (findBy_mem hb) hbkid (by rw [hbk]; simp [completedRow])

theorem inv_reachable {st st2 : DBState} (hinv : Inv st) (hr : Reachable st st2) :
    Inv st2 := by
  induction hr with
  | refl => exact hinv
  | tail _ hstep ih => exact inv_step ih hstep

/-! Claim support: the absence-lock condition as the existence of a valid
permission (claim C1). -/

/-- A RebookingPermission row for (student, subject) granted by the given
faculty external id and at least as new as the absence time t. -/
def ValidPerm (st : DBState) (studentId : Nat) (subject ext : String) (t : Int) : Prop :=
  ∃ p ∈ st.perms, p.studentId = studentId ∧ p.subject = subject ∧
    p.teacherExternalId = ext ∧ t ≤ p.updatedAt

theorem slotSave_error {now : Int} {st : DBState} {s : Slot} {e : BErr}
    (h : slotSave now st s = Except.error e) :
    e = BErr.slotTimesInvalid ∨ e = BErr.slotInPast := by
  unfold slotSave slotClean at h
  split at h
  next e' heq =>
    split at heq
    · left
      cases heq
      cases h
      rfl
    · split at heq
      · right
        cases heq
        cases h
        rfl
      · exact absurd heq (by simp)
  next heq => exact absurd h (by simp)

theorem absenceBlocked_iff_validPerm {st : DBState} {sid : Nat} {subject ext : String}
    {la : Booking}
    (hla : pickLatest (absCands st sid subject ext) = some la)
    (hp1 : st.perms.countP (permKey sid subject) ≤ 1) :
    (absenceBlocked st sid subject ext = true ↔
      ¬ ValidPerm st sid subject ext (la.absentAt.getD la.updatedAt)) := by
  unfold absenceBlocked
  rw [hla]
  cases hfp : findPermL st.perms sid subject ext with
  | none =>
    have hnvp : ¬ ValidPerm st sid subject ext (la.absentAt.getD la.updatedAt) := by
      intro hvp
      obtain ⟨p, hpmem, hps, hpsub, hpext, hple⟩ := hvp
      have hnone := List.find?_eq_none.1 hfp p hpmem
      apply hnone
      simp [hps, hpsub, hpext]
    simp [hnvp]
  | some p =>
    have hppred := List.find?_some hfp
    have hpmem : p ∈ st.perms := List.mem_of_find?_eq_some hfp
    simp only [Bool.and_eq_true, beq_iff_eq] at hppred
    obtain ⟨⟨hips, hipsub⟩, hipext⟩ := hppred
    by_cases hlt2 : p.updatedAt < la.absentAt.getD la.updatedAt
    · have hnvp : ¬ ValidPerm st sid subject ext (la.absentAt.getD la.updatedAt) := by
        intro hvp
        obtain ⟨q, hqmem, hqs, hqsub, hqext, hqle⟩ := hvp
        have hqp : q ≠ p := by
          intro hqp
          rw [hqp] at hqle
          omega
        have hpfil : p ∈ st.perms.filter (permKey sid subject) := by
          rw [List.mem_filter]
          exact ⟨hpmem, by simp [permKey, hips, hipsub]⟩
        have hqfil : q ∈ st.perms.filter (permKey sid subject) := by
          rw [List.mem_filter]
          exact ⟨hqmem, by simp [permKey, hqs, hqsub]⟩
        have h2 : 2 ≤ (st.perms.filter (permKey sid subject)).length :=
          two_le_length_of_mem_ne hqfil hpfil hqp
        rw [← List.countP_eq_length_filter] at h2
        omega
      simp [hlt2, hnvp]
    · have hvp : ValidPerm st sid subject ext (la.absentAt.getD la.updatedAt) :=
        ⟨p, hpmem, hips, hipsub, hipext, by omega⟩
      simp [hlt2, hvp]

/-- Under the checks that precede the absence gate, create_booking fails
with AbsenceLocked exactly when the absence gate fires. -/
theorem create_absenceLocked_iff {st : DBState} {now : Int} {slotId studentId : Nat}
    {g : String} {slot : Slot} {u : User}
    (hslot : findSlotL st.slots slotId = some slot)
    (huser : findUserL st.users studentId = some u)
    (hav : slot.isAvailable = true)
    (hconf : isConfirmedOpt (slotBookingL st.bookings slot.id) = false)
    (hg : (g == "") = false)
    (htc : st.bookings.any (bookingMatches st.slots g (normalize_subject slot.subject)) = false) :
    (create_booking now slotId studentId g st = Except.error BErr.absenceLocked ↔
      absenceBlocked st studentId (normalize_subject slot.subject)
        (extIdOf st.users slot.facultyId) = true) := by
  cases habs : absenceBlocked st studentId (normalize_subject slot.subject)
      (extIdOf st.users slot.facultyId) with
  | true =>
    simp only [iff_true]
    unfold create_booking
    simp [hslot, huser, hav, hconf, hg, htc, habs]
  | false =>
    simp only [Bool.false_eq_true, iff_false]
    intro h
    unfold create_booking at h
    simp only [hslot, huser] at h
    rw [hav] at h
    rw [hconf] at h
    rw [hg] at h
    rw [htc] at h
    rw [habs] at h
    simp only [Bool.false_eq_true, if_false] at h
    cases hsb : slotBookingL st.bookings slot.id with
    | some e =>
      rw [hsb] at h
      simp only [] at h
      by_cases hc : (e.status == BStatus.cancelled) = true
      · rw [if_pos hc] at h
        cases hsave : slotSave now
            { st with bookings := replaceBy Booking.id st.bookings e.id (reuseRow now studentId g e) }
            { slot with isAvailable := false, updatedAt := now } with
        | error err =>
          rw [hsave] at h
          cases h
          rcases slotSave_error hsave with h' | h' <;> cases h'
        | ok st2 =>
          rw [hsave] at h
          cases h
      · rw [if_neg hc] at h
        cases h
    | none =>
      rw [hsb] at h
      simp only [] at h
      cases hsave : slotSave now
          { st with
            bookings := freshRow now st.nextId slot.id studentId g :: st.bookings,
            nextId := st.nextId + 1 }
          { slot with isAvailable := false, updatedAt := now } with
      | error err =>
        rw [hsave] at h
        cases h
        rcases slotSave_error hsave with h' | h' <;> cases h'
      | ok st2 =>
        rw [hsave] at h
        cases h

/-! The claim theorems. -/

/-- C1: for a call create(slot, student, teamId) that passes the checks
preceding the absence gate, when the most recent Absent booking la of
(student, slot subject, slot faculty external id) exists, the call fails
with AbsenceLocked exactly unless a RebookingPermission keyed by
(student, subject) whose teacher_external_id equals the slot faculty's
external id exists with updated_at at least la.absent_at (falling back
to la.updated_at when absent_at is null); with such a permission the
absence does not block creation.  The permission-uniqueness hypothesis
is the database unique constraint on (student, subject). -/
theorem C1_absence_lock (st : DBState) (now : Int) (slotId studentId : Nat) (g : String)
    (slot : Slot) (u : User) (la : Booking)
    (hslot : findSlotL st.slots slotId = some slot)
    (huser : findUserL st.users studentId = some u)
    (hav : slot.isAvailable = true)
    (hconf : isConfirmedOpt (slotBookingL st.bookings slot.id) = false)
    (hg : (g == "") = false)
    (htc : st.bookings.any (bookingMatches st.slots g (normalize_subject slot.subject)) = false)
    (hla : pickLatest (absCands st studentId (normalize_subject slot.subject)
      (extIdOf st.users slot.facultyId)) = some la)
    (hperm1 : st.perms.countP (permKey studentId (normalize_subject slot.subject)) ≤ 1) :
    (create_booking now slotId studentId g st = Except.error BErr.absenceLocked ↔
      ¬ ValidPerm st studentId (normalize_subject slot.subject)
        (extIdOf st.users slot.facultyId) (la.absentAt.getD la.updatedAt)) :=
  (create_absenceLocked_iff hslot huser hav hconf hg htc).trans
    (absenceBlocked_iff_validPerm hla hperm1)

/-- C2: from any well-formed state, every state reachable by create,
cancel, markAbsent and markCompleted requests has at most one Confirmed
booking per (team id, subject) pair; and create rejects with
TeamConflict whenever, at the point of the team check, a Confirmed
booking for (teamId, normalized slot subject) already exists. -/
theorem C2_team_subject_exclusivity (init st : DBState)
    (h0 : Inv init) (hr : Reachable init st) :
    (∀ g subj, confirmedCount st g subj ≤ 1) ∧
    (∀ (now : Int) (slotId studentId : Nat) (g : String) (slot : Slot) (u : User),
      findSlotL st.slots slotId = some slot →
      findUserL st.users studentId = some u →
      slot.isAvailable = true →
      isConfirmedOpt (slotBookingL st.bookings slot.id) = false →
      (g == "") = false →
      st.bookings.any (bookingMatches st.slots g (normalize_subject slot.subject)) = true →
      create_booking now slotId studentId g st = Except.error BErr.teamConflict) := by
  constructor
  · exact (inv_reachable h0 hr).2.2.2.2
  · intro now slotId studentId g slot u hslot huser hav hconf hg htc
    unfold create_booking
    simp [hslot, huser, hav, hconf, hg, htc]

theorem cancel_eval {st : DBState} {now : Int} {bid : Nat} {r : String} {force : Bool}
    {b : Booking} {slot : Slot}
    (hb : findBookingL st.bookings bid = some b)
    (hst : b.status = BStatus.confirmed)
    (hslot : findSlotL st.slots b.slotId = some slot) :
    cancel now bid r force st =
      (if (!force && !(can_cancel now slot b)) = true then Except.error BErr.cancellationWindow
       else
        match slotSave now
            { st with bookings := replaceBy Booking.id st.bookings b.id (cancelledRow now r b) }
            { slot with isAvailable := true, updatedAt := now } with
        | Except.error e => Except.error e
        | Except.ok st2 => Except.ok (st2, cancelledRow now r b)) := by
  have hstatus : (!(b.status == BStatus.confirmed)) = false := by simp [hst]
  unfold cancel
  rw [hb]
  simp only []
  rw [hstatus]
  simp only [Bool.false_eq_true, if_false]
  rw [hslot]

/-- C3 amended: for every Confirmed booking on a well-formed slot
(start before end), cancel with force=false is rejected with
CancellationWindowViolation exactly when now is at or past start_time
minus 8 hours; cancel with force=true bypasses the window check and
succeeds whenever the slot has not started yet (now at or before
start_time), but once start_time has passed the forced cancel fails with
the slot-in-past validation raised by Slot.full_clean when the slot row
is saved — it does not succeed after the slot's start_time. -/
theorem C3_cancel_window (st : DBState) (now : Int) (bid : Nat) (r : String)
    (b : Booking) (slot : Slot)
    (hb : findBookingL st.bookings bid = some b)
    (hst : b.status = BStatus.confirmed)
    (hslot : findSlotL st.slots b.slotId = some slot)
    (hts : slot.startTime < slot.endTime) :
    ((cancel now bid r false st = Except.error BErr.cancellationWindow ↔
        slot.startTime - 8 * 3600 ≤ now) ∧
      (slot.startTime < now → cancel now bid r true st = Except.error BErr.slotInPast) ∧
      (now ≤ slot.startTime →
        ∃ st1, cancel now bid r true st = Except.ok (st1, cancelledRow now r b))) := by
  have hns : ¬(Slot.endTime { slot with isAvailable := true, updatedAt := now } ≤
      Slot.startTime { slot with isAvailable := true, updatedAt := now }) := by
    simp only
    omega
  refine ⟨⟨?_, ?_⟩, ?_, ?_⟩
  · intro h
    rw [cancel_eval hb hst hslot] at h
    by_contra hd
    push_neg at hd
    have hcc : can_cancel now slot b = true := by
      unfold can_cancel
      simp [hst]
      omega
    rw [hcc] at h
    simp only [Bool.not_true, Bool.and_false, Bool.false_eq_true, if_false] at h
    have hsave : slotSave now
        { st with bookings := replaceBy Booking.id st.bookings b.id (cancelledRow now r b) }
        { slot with isAvailable := true, updatedAt := now } =
        Except.ok { st with
          bookings := replaceBy Booking.id st.bookings b.id (cancelledRow now r b),
          slots := replaceBy Slot.id st.slots slot.id
            { slot with isAvailable := true, updatedAt := now } } := by
      unfold slotSave slotClean
      rw [if_neg hns, if_neg (by simp only; omega)]
    rw [hsave] at h
    cases h
  · intro hd
    rw [cancel_eval hb hst hslot]
    have hcc : can_cancel now slot b = false := by
      unfold can_cancel
      simp
      intro _
      omega
    rw [hcc]
    simp
  · intro hpast
    rw [cancel_eval hb hst hslot]
    simp only [Bool.not_true, Bool.false_and, Bool.false_eq_true, if_false]
    have hsave : slotSave now
        { st with bookings := replaceBy Booking.id st.bookings b.id (cancelledRow now r b) }
        { slot with isAvailable := true, updatedAt := now } =
        Except.error BErr.slotInPast := by
      unfold slotSave slotClean
      rw [if_neg hns, if_pos (by simp only; omega)]
    rw [hsave]
  · intro hfut
    rw [cancel_eval hb hst hslot]
    simp only [Bool.not_true, Bool.false_and, Bool.false_eq_true, if_false]
    have hsave : slotSave now
        { st with bookings := replaceBy Booking.id st.bookings b.id (cancelledRow now r b) }
        { slot with isAvailable := true, updatedAt := now } =
        Except.ok { st with
          bookings := replaceBy Booking.id st.bookings b.id (cancelledRow now r b),
          slots := replaceBy Slot.id st.slots slot.id
            { slot with isAvailable := true, updatedAt := now } } := by
      unfold slotSave slotClean
      rw [if_neg hns, if_neg (by simp only; omega)]
    rw [hsave]
    exact ⟨_, rfl⟩

theorem slotSave_error_shape {now : Int} {st : DBState} {s : Slot} {e : BErr}
    (h : slotSave now st s = Except.error e) :
    (e = BErr.slotTimesInvalid ∧ s.endTime ≤ s.startTime) ∨
      (e = BErr.slotInPast ∧ s.startTime < now) := by
  unfold slotSave slotClean at h
  split at h
  next e' heq =>
    split at heq
    next hc1 =>
      left
      cases heq
      cases h
      exact ⟨rfl, hc1⟩
    · split at heq
      next hc2 =>
        right
        cases heq
        cases h
        exact ⟨rfl, hc2⟩
      · exact absurd heq (by simp)
  next heq => exact absurd h (by simp)

/-- A SlotInPast-style error out of the engine-level create_booking only
arises from Slot.full_clean on the final save, hence only when the
slot's start_time is already in the past. -/
theorem create_slotInPast_shape {st : DBState} {now : Int} {slotId studentId : Nat}
    {g : String}
    (h : create_booking now slotId studentId g st = Except.error BErr.slotInPast) :
    ∃ slot, findSlotL st.slots slotId = some slot ∧ slot.startTime < now := by
  unfold create_booking at h
  split at h
  · cases h
  next slot hslot =>
    split at h
    · cases h
    next _u _huser =>
      split at h
      · cases h
      next hav =>
        split at h
        · cases h
        next hconf =>
          split at h
          · cases h
          next hg =>
            split at h
            · cases h
            next htc =>
              split at h
              · cases h
              next habs =>
                refine ⟨slot, hslot, ?_⟩
                split at h
                next e hebk =>
                  split at h
                  next hcanc =>
                    split at h
                    next err hsave =>
                      cases h
                      rcases slotSave_error_shape hsave with ⟨he, _⟩ | ⟨_, hlt⟩
                      · cases he
                      · simpa using hlt
                    next st2 hsave => cases h
                  · cases h
                next hebk =>
                  split at h
                  next err hsave =>
                    cases h
                    rcases slotSave_error_shape hsave with ⟨he, _⟩ | ⟨_, hlt⟩
                    · cases he
                    · simpa using hlt
                  next st2 hsave => cases h

/-- A SlotInPast error out of the serializer checks only arises from the
explicit past-slot check, hence only when start_time is at or before
now (and the slot was found available). -/
theorem validateCreate_slotInPast_shape {st : DBState} {now : Int} {slotId studentId : Nat}
    {g pg : String} {pm : List String}
    (h : validateCreate now slotId studentId g pg pm st = Except.error BErr.slotInPast) :
    ∃ slot, findSlotL st.slots slotId = some slot ∧ slot.startTime ≤ now := by
  unfold validateCreate at h
  split at h
  · cases h
  next slot hslot =>
    split at h
    · cases h
    next hav =>
      split at h
      next hpast => exact ⟨slot, hslot, hpast⟩
      next hpast =>
        split at h
        · cases h
        next hconf =>
          split at h
          · cases h
          next _u _hu =>
            split at h
            · cases h
            next hg =>
              split at h
              · cases h
              next htc =>
                split at h
                · cases h
                next habs =>
                  split at h
                  · cases h
                  next hd =>
                    split at h
                    · cases h
                    next hgm =>
                      split at h
                      · cases h
                      next hme =>
                        split at h
                        · cases h
                        · cases h

/-- C4: create(slot, student, teamId) through the exposed create
endpoint (serializer validation then Booking.create_booking): when
slot.start_time is at or before now the call fails with no state change,
and with SlotInPast whenever the preceding availability check passes;
when slot.start_time is in the future, no SlotInPast error can be
produced. -/
theorem C4_slot_in_past (st : DBState) (now : Int) (slotId studentId : Nat)
    (g pg : String) (pm : List String) (slot : Slot)
    (hslot : findSlotL st.slots slotId = some slot) :
    ((slot.startTime ≤ now →
        (apiCreate now slotId studentId g pg pm st).1 = st ∧
        ∃ e, (apiCreate now slotId studentId g pg pm st).2 = Except.error e ∧
          (slot.isAvailable = true → e = BErr.slotInPast)) ∧
      (now < slot.startTime →
        ∀ e, (apiCreate now slotId studentId g pg pm st).2 = Except.error e →
          e ≠ BErr.slotInPast)) := by
  constructor
  · intro hpast
    cases hava : slot.isAvailable with
    | false =>
      have hv : validateCreate now slotId studentId g pg pm st =
          Except.error BErr.slotUnavailable := by
        unfold validateCreate
        simp [hslot, hava]
      unfold apiCreate
      rw [hv]
      exact ⟨rfl, BErr.slotUnavailable, rfl, fun hav => absurd hav (by simp)⟩
    | true =>
      have hv : validateCreate now slotId studentId g pg pm st =
          Except.error BErr.slotInPast := by
        unfold validateCreate
        simp [hslot, hava, hpast]
      unfold apiCreate
      rw [hv]
      exact ⟨rfl, BErr.slotInPast, rfl, fun _ => rfl⟩
  · intro hfut e he
    intro hne
    subst hne
    unfold apiCreate at he
    cases hv : validateCreate now slotId studentId g pg pm st with
    | error e' =>
      rw [hv] at he
      simp only at he
      cases he
      obtain ⟨slot', hslot', hle⟩ := validateCreate_slotInPast_shape hv
      rw [hslot] at hslot'
      cases hslot'
      omega
    | ok derived =>
      rw [hv] at he
      simp only [] at he
      unfold runOp at he
      cases hc : create_booking now slotId studentId derived st with
      | error e'' =>
        rw [hc] at he
        simp only at he
        cases he
        obtain ⟨slot', hslot', hlt⟩ := create_slotInPast_shape hc
        rw [hslot] at hslot'
        cases hslot'
        omega
      | ok p =>
        rw [hc] at he
        simp only at he
        cases he

/-- C5: whenever create_booking returns a Confirmed booking the target
slot's is_available is false afterwards, and whenever cancel succeeds on
a Confirmed booking the slot's is_available is true afterwards. -/
theorem C5_availability_toggle (st st1 : DBState) (now : Int) (slotId studentId bid : Nat)
    (g r : String) (force : Bool) (bk : Booking) :
    ((create_booking now slotId studentId g st = Except.ok (st1, bk) →
        bk.status = BStatus.confirmed ∧
        ∃ slot1, findSlotL st1.slots bk.slotId = some slot1 ∧ slot1.isAvailable = false) ∧
      (cancel now bid r force st = Except.ok (st1, bk) →
        bk.status = BStatus.cancelled ∧
        ∃ slot1, findSlotL st1.slots bk.slotId = some slot1 ∧ slot1.isAvailable = true)) := by
  constructor
  · intro hok
    obtain ⟨slot, hslot, hav, hconf, hg, htc, habs, hlt, hle, hslots, husers, hperms,
      hwrite⟩ := create_ok_shape hok
    have hkey : slot.id = slotId := findBy_key hslot
    have hbkslot : bk.slotId = slot.id := by
      rcases hwrite with ⟨e, hebk, hecanc, hbk, _, _⟩ | ⟨hebk, hbk, _, _⟩
      · have hkey2 := findBy_key hebk
        rw [hbk]
        simpa [reuseRow] using hkey2
      · rw [hbk]
        simp [freshRow]
    have hstatus : bk.status = BStatus.confirmed := by
      rcases hwrite with ⟨e, hebk, hecanc, hbk, _, _⟩ | ⟨hebk, hbk, _, _⟩
      · rw [hbk]
        simp [reuseRow]
      · rw [hbk]
        simp [freshRow]
    have hfind : findSlotL st1.slots bk.slotId =
        some { slot with isAvailable := false, updatedAt := now } := by
      rw [hslots, hbkslot]
      unfold findSlotL
      rw [← hkey] at hslot
      exact findBy_replaceBy hslot rfl
    exact ⟨hstatus, _, hfind, rfl⟩
  · intro hok
    obtain ⟨b, slot, hb, hst, hslot, hwin, hlt, hle, hbk, hbks, hslots, husers,
      hperms, hnext⟩ := cancel_ok_shape hok
    have hbkslot : bk.slotId = b.slotId := by
      rw [hbk]
      simp [cancelledRow]
    have hstatus : bk.status = BStatus.cancelled := by
      rw [hbk]
      simp [cancelledRow]
    have hkey : slot.id = b.slotId := findBy_key hslot
    have hfind : findSlotL st1.slots bk.slotId =
        some { slot with isAvailable := true, updatedAt := now } := by
      rw [hslots, hbkslot, ← hkey]
      unfold findSlotL
      rw [← hkey] at hslot
      exact findBy_replaceBy hslot rfl
    exact ⟨hstatus, _, hfind, rfl⟩

/-- C6: create and cancel run under transaction.atomic; when either
fails with any error the persisted state is exactly the pre-call state
(the runOp wrapper is the shallow embedding of the transactional
rollback). -/
theorem C6_rollback_on_error (st st1 : DBState) (now : Int) (slotId studentId bid : Nat)
    (g r : String) (force : Bool) (e : BErr) :
    ((runOp (create_booking now slotId studentId g) st = (st1, Except.error e) → st1 = st) ∧
      (runOp (cancel now bid r force) st = (st1, Except.error e) → st1 = st)) := by
  constructor
  · intro h
    unfold runOp at h
    cases hc : create_booking now slotId studentId g st with
    | error e' =>
      rw [hc] at h
      exact (Prod.mk.injEq .. ▸ h).1.symm
    | ok p =>
      rw [hc] at h
      obtain ⟨st2, bk⟩ := p
      have := (Prod.mk.injEq .. ▸ h).2
      cases this
  · intro h
    unfold runOp at h
    cases hc : cancel now bid r force st with
    | error e' =>
      rw [hc] at h
      exact (Prod.mk.injEq .. ▸ h).1.symm
    | ok p =>
      rw [hc] at h
      obtain ⟨st2, bk⟩ := p
      have := (Prod.mk.injEq .. ▸ h).2
      cases this

/-- C7 amended: the two faculty_views endpoints are idempotent — after a
successful markAbsent (markCompleted) a second call returns the same
terminal booking and the same state with no error; the router-based
FacultyBookingViewSet.complete endpoint, by contrast, rejects the second
call (see the counterexample). -/
theorem C7_mark_idempotent (st : DBState) (now now2 : Int) (fid bid : Nat) :
    ((∀ st1 b1, markAbsent now fid bid st = Except.ok (st1, b1) →
        b1.status = BStatus.absent ∧ markAbsent now2 fid bid st1 = Except.ok (st1, b1)) ∧
      (∀ st1 b1, markCompleted now fid bid st = Except.ok (st1, b1) →
        b1.status = BStatus.completed ∧
          markCompleted now2 fid bid st1 = Except.ok (st1, b1))) := by
  constructor
  · intro st1 b1 hok
    obtain ⟨b, slot, hb, hslot, hfac, hslots, husers, hperms, hnext, habst, hsome,
      hid, hsid, hwrite⟩ := markAbsent_ok_shape hok
    refine ⟨habst, ?_⟩
    have hfind : findBookingL st1.bookings bid = some b1 := by
      rcases hwrite with ⟨_, _, _, hbks⟩ | ⟨_, _, hb1, hst1⟩ | ⟨_, _, hbks⟩
      · rw [hbks]
        exact findBy_replaceBy hb hid
      · rw [hst1, hb1]
        exact hb
      · rw [hbks]
        exact findBy_replaceBy hb hid
    have hslot1 : findSlotL st1.slots b1.slotId = some slot := by
      rw [hslots, hsid]
      exact hslot
    obtain ⟨t, ht⟩ := Option.isSome_iff_exists.1 hsome
    unfold markAbsent
    rw [hfind]
    simp only []
    rw [hslot1]
    simp only []
    rw [show (!(slot.facultyId == fid)) = false by simp [hfac]]
    simp only [Bool.false_eq_true, if_false]
    rw [show (b1.status == BStatus.absent) = true by simp [habst]]
    simp only [if_pos]
    rw [ht]
  · intro st1 b1 hok
    obtain ⟨b, slot, hb, hslot, hfac, hslots, husers, hperms, hnext, hcst,
      hid, hsid, hwrite⟩ := markCompleted_ok_shape hok
    refine ⟨hcst, ?_⟩
    have hfind : findBookingL st1.bookings bid = some b1 := by
      rcases hwrite with ⟨_, hb1, hst1⟩ | ⟨_, _, hbks⟩
      · rw [hst1, hb1]
        exact hb
      · rw [hbks]
        exact findBy_replaceBy hb hid
    have hslot1 : findSlotL st1.slots b1.slotId = some slot := by
      rw [hslots, hsid]
      exact hslot
    unfold markCompleted
    rw [hfind]
    simp only []
    rw [hslot1]
    simp only []
    rw [show (!(slot.facultyId == fid)) = false by simp [hfac]]
    simp only [Bool.false_eq_true, if_false]
    rw [show (b1.status == BStatus.completed) = true by simp [hcst]]
    simp only [if_pos]

/-- C8: markAbsent on a Confirmed booking sets status Absent, stamps
absent_at with now, and leaves the slot table (hence the slot row and
its is_available flag) entirely unchanged. -/
theorem C8_absent_keeps_slot (st st1 : DBState) (now : Int) (fid bid : Nat)
    (b b1 : Booking)
    (hb : findBookingL st.bookings bid = some b)
    (hconf : b.status = BStatus.confirmed)
    (hok : markAbsent now fid bid st = Except.ok (st1, b1)) :
    b1.status = BStatus.absent ∧ b1.absentAt = some now ∧ b1.id = b.id ∧
    st1.slots = st.slots ∧
    ∀ sid slot, findSlotL st.slots sid = some slot →
      findSlotL st1.slots sid = some slot := by
  obtain ⟨b', slot, hb', hslot, hfac, hslots, husers, hperms, hnext, habst, hsome,
    hid, hsid, hwrite⟩ := markAbsent_ok_shape hok
  rw [hb] at hb'
  cases hb'
  rcases hwrite with ⟨habs2, _, _, _⟩ | ⟨habs2, _, _, _⟩ | ⟨_, hb1, _⟩
  · rw [hconf] at habs2
    cases habs2
  · rw [hconf] at habs2
    cases habs2
  · refine ⟨habst, ?_, hid, hslots, ?_⟩
    · rw [hb1]
      rfl
    · intro sid slot' hs
      rw [hslots]
      exact hs

/-- C10: when create targets a slot whose existing booking row is
Cancelled, the row is reused in place: the returned booking keeps id,
created_at and absent_at, gets the new student, group, Confirmed
status, cleared cancellation fields and a fresh updated_at, and no new
row is inserted (the bookings table keeps its length and the id counter
does not advance). -/
theorem C10_reuse_cancelled_row (st st1 : DBState) (now : Int) (slotId studentId : Nat)
    (g : String) (slot : Slot) (e bk : Booking)
    (hslot : findSlotL st.slots slotId = some slot)
    (he : slotBookingL st.bookings slot.id = some e)
    (hcanc : e.status = BStatus.cancelled)
    (hok : create_booking now slotId studentId g st = Except.ok (st1, bk)) :
    bk.id = e.id ∧ bk.createdAt = e.createdAt ∧ bk.absentAt = e.absentAt ∧
    bk.studentId = studentId ∧ bk.groupId = g ∧ bk.status = BStatus.confirmed ∧
    bk.cancelledAt = none ∧ bk.cancellationReason = "" ∧ bk.updatedAt = now ∧
    st1.nextId = st.nextId ∧ st1.bookings.length = st.bookings.length ∧
    st1.bookings = replaceBy Booking.id st.bookings e.id bk := by
  obtain ⟨slot', hslot', hav, hconf, hg, htc, habs, hlt, hle, hslots, husers, hperms,
    hwrite⟩ := create_ok_shape hok
  rw [hslot] at hslot'
  cases hslot'
  rcases hwrite with ⟨e', he', hecanc, hbk, hbks, hnext⟩ | ⟨he', hbk, hbks, hnext⟩
  · rw [he] at he'
    cases he'
    subst hbk
    refine ⟨rfl, rfl, rfl, rfl, rfl, rfl, rfl, rfl, rfl, hnext, ?_, hbks⟩
    rw [hbks]
    unfold replaceBy
    rw [List.length_map]
  · rw [he] at he'
    cases he'

/-- C9 amended: for a faculty whose external id is configured, an
allowed subject, and a student who HAS an Absent booking for that
subject on that faculty's slots (the endpoint rejects the grant
otherwise — see the counterexample), grantRebookingPermission upserts
the single RebookingPermission row keyed by (student, subject):
afterwards exactly one row exists for that key, carrying the faculty's
external id and a fresh updated_at.  The count hypotheses are the
database unique constraint on (student, subject) and primary-key
uniqueness. -/
theorem C9_grant_upsert (st st1 : DBState) (now : Int) (fid sid : Nat)
    (subjArg : String) (fac stu : User) (p1 : RebookingPermission)
    (hfac : findUserL st.users fid = some fac)
    (hext : (fac.pblUserId == "") = false)
    (hsubj : is_allowed_subject (normalize_subject subjArg) = true)
    (hstu : st.users.find? (fun u => u.id == sid && u.role == "student") = some stu)
    (habs : hasAbsentFor st stu.id (normalize_subject subjArg) fac.pblUserId = true)
    (hpnd : (st.perms.map RebookingPermission.id).Nodup)
    (hp1 : st.perms.countP (permKey stu.id (normalize_subject subjArg)) ≤ 1)
    (hok : allowRebooking now fid sid subjArg st = Except.ok (st1, p1)) :
    p1.studentId = stu.id ∧ p1.subject = normalize_subject subjArg ∧
    p1.teacherExternalId = fac.pblUserId ∧ p1.updatedAt = now ∧
    st1.perms.countP (permKey stu.id (normalize_subject subjArg)) = 1 := by
  unfold allowRebooking at hok
  rw [hsubj] at hok
  simp only [Bool.not_true, Bool.false_eq_true, if_false] at hok
  rw [hfac] at hok
  simp only [] at hok
  rw [hext] at hok
  simp only [Bool.false_eq_true, if_false] at hok
  rw [hstu] at hok
  simp only [] at hok
  rw [habs] at hok
  simp only [Bool.not_true, Bool.false_eq_true, if_false] at hok
  cases hfp : st.perms.find? (permKey stu.id (normalize_subject subjArg)) with
  | some p =>
    rw [hfp] at hok
    simp only [] at hok
    obtain ⟨hst1, hp1eq⟩ := Prod.mk.injEq .. ▸ (Except.ok.inj hok)
    have hpmem : p ∈ st.perms := List.mem_of_find?_eq_some hfp
    have hpkey : permKey stu.id (normalize_subject subjArg) p = true := List.find?_some hfp
    refine ⟨?_, ?_, ?_, ?_, ?_⟩
    · rw [← hp1eq]
      unfold permKey at hpkey
      simp only [Bool.and_eq_true, beq_iff_eq] at hpkey
      exact hpkey.1
    · rw [← hp1eq]
      unfold permKey at hpkey
      simp only [Bool.and_eq_true, beq_iff_eq] at hpkey
      exact hpkey.2
    · rw [← hp1eq]
      rfl
    · rw [← hp1eq]
      rfl
    · rw [← hst1]
      simp only []
      have hrepl := @countP_replaceBy _ RebookingPermission.id st.perms p
        (permUpdateRow now fac.pblUserId p)
        (permKey stu.id (normalize_subject subjArg)) hpmem hpnd
      have hknew : permKey stu.id (normalize_subject subjArg)
          (permUpdateRow now fac.pblUserId p) = true := by
        unfold permKey at hpkey ⊢
        unfold permUpdateRow
        simpa using hpkey
      rw [hpkey, hknew] at hrepl
      have hge : 1 ≤ st.perms.countP (permKey stu.id (normalize_subject subjArg)) := by
        have := List.countP_pos_iff.2 ⟨p, hpmem, hpkey⟩
        omega
      omega
  | none =>
    rw [hfp] at hok
    simp only [] at hok
    obtain ⟨hst1, hp1eq⟩ := Prod.mk.injEq .. ▸ (Except.ok.inj hok)
    have hzero : st.perms.countP (permKey stu.id (normalize_subject subjArg)) = 0 := by
      rw [List.countP_eq_zero]
      exact List.find?_eq_none.1 hfp
    refine ⟨?_, ?_, ?_, ?_, ?_⟩
    · rw [← hp1eq]
      rfl
    · rw [← hp1eq]
      rfl
    · rw [← hp1eq]
      rfl
    · rw [← hp1eq]
      rfl
    · rw [← hst1]
      simp only []
      rw [List.countP_cons]
      have hknew : permKey stu.id (normalize_subject subjArg)
          (permNewRow now st.nextId stu.id (normalize_subject subjArg) fac.pblUserId)
            = true := by
        unfold permKey permNewRow
        simp
      rw [hknew, hzero]
      simp

/-! Concrete fixtures for witnesses and counterexamples. -/

def facW : User :=
  { id := 1, role := "faculty", pblUserId := "F1", email := "fac@example.com" }

def stuW : User :=
  { id := 2, role := "student", pblUserId := "", email := "stu@example.com" }

def stu3W : User :=
  { id := 3, role := "student", pblUserId := "", email := "stu3@example.com" }

def slotW : Slot :=
  { id := 10, facultyId := 1, subject := "Web Development",
    startTime := 100000, endTime := 103600, isAvailable := true, updatedAt := 0 }

def slot12W : Slot :=
  { id := 12, facultyId := 1, subject := "Web Development",
    startTime := 110000, endTime := 113600, isAvailable := true, updatedAt := 0 }

def slotPastW : Slot :=
  { id := 11, facultyId := 1, subject := "Web Development",
    startTime := 1000, endTime := 2000, isAvailable := false, updatedAt := 0 }

def absentBW : Booking :=
  { id := 50, slotId := 11, studentId := 2, groupId := "T1",
    status := BStatus.absent, cancelledAt := none, cancellationReason := "",
    absentAt := some 2500, createdAt := 900, updatedAt := 2500 }

def confirmedBW : Booking :=
  { id := 60, slotId := 10, studentId := 2, groupId := "T1",
    status := BStatus.confirmed, cancelledAt := none, cancellationReason := "",
    absentAt := none, createdAt := 500, updatedAt := 500 }

def cancelledBW : Booking :=
  { id := 70, slotId := 10, studentId := 2, groupId := "T1",
    status := BStatus.cancelled, cancelledAt := some 600, cancellationReason := "x",
    absentAt := none, createdAt := 300, updatedAt := 600 }

/-- Empty-bookings state: one available future slot. -/
def stA : DBState :=
  { users := [facW, stuW], slots := [slotW], bookings := [], perms := [], nextId := 100 }

/-- State with one Confirmed booking (team T1, subject Web Development). -/
def stB : DBState :=
  { users := [facW, stuW, stu3W], slots := [slotW, slot12W],
    bookings := [confirmedBW], perms := [], nextId := 100 }

/-- State with one unresolved Absent booking of student 2. -/
def stC1w : DBState :=
  { users := [facW, stuW], slots := [slotW, slotPastW],
    bookings := [absentBW], perms := [], nextId := 100 }

/-- State with a Cancelled booking occupying the available slot. -/
def stC10w : DBState :=
  { users := [facW, stuW], slots := [slotW], bookings := [cancelledBW],
    perms := [], nextId := 100 }

/-- A Confirmed booking whose slot has already started. -/
def slotPastC : Slot :=
  { id := 20, facultyId := 1, subject := "Web Development",
    startTime := 1000, endTime := 2000, isAvailable := false, updatedAt := 0 }

def bkPastConf : Booking :=
  { id := 80, slotId := 20, studentId := 2, groupId := "T1",
    status := BStatus.confirmed, cancelledAt := none, cancellationReason := "",
    absentAt := none, createdAt := 500, updatedAt := 500 }

def stC3c : DBState :=
  { users := [facW, stuW], slots := [slotPastC], bookings := [bkPastConf],
    perms := [], nextId := 100 }

/-- Result of create_booking 500 10 2 T1 on stA. -/
def bkC5 : Booking :=
  { id := 100, slotId := 10, studentId := 2, groupId := "T1",
    status := BStatus.confirmed, cancelledAt := none, cancellationReason := "",
    absentAt := none, createdAt := 500, updatedAt := 500 }

def stApost : DBState :=
  { users := [facW, stuW],
    slots := [{ slotW with isAvailable := false, updatedAt := 500 }],
    bookings := [bkC5], perms := [], nextId := 101 }

/-- Result of cancel 600 100 r false on stApost. -/
def bkC5c : Booking :=
  { bkC5 with
    status := BStatus.cancelled, cancelledAt := some 600,
    cancellationReason := "r", updatedAt := 600 }

def stApost2 : DBState :=
  { users := [facW, stuW],
    slots := [{ slotW with isAvailable := true, updatedAt := 600 }],
    bookings := [bkC5c], perms := [], nextId := 101 }

/-- Result of markAbsent 700 1 60 on stB. -/
def bkAbsW : Booking :=
  { confirmedBW with status := BStatus.absent, absentAt := some 700, updatedAt := 700 }

def stBabs : DBState := { stB with bookings := [bkAbsW] }

/-- Result of markCompleted 700 1 60 on stB. -/
def bkCompW : Booking :=
  { confirmedBW with status := BStatus.completed, updatedAt := 700 }

def stBcomp : DBState := { stB with bookings := [bkCompW] }

/-- Result of allowRebooking 3000 1 2 Web-Development on stC1w. -/
def permW : RebookingPermission :=
  { id := 100, studentId := 2, subject := "Web Development",
    teacherExternalId := "F1", createdAt := 3000, updatedAt := 3000 }

def stC9post : DBState := { stC1w with perms := [permW], nextId := 101 }

/-- Result of create_booking 500 10 2 T2 on stC10w (reused row). -/
def bkC10 : Booking :=
  { id := 70, slotId := 10, studentId := 2, groupId := "T2",
    status := BStatus.confirmed, cancelledAt := none, cancellationReason := "",
    absentAt := none, createdAt := 300, updatedAt := 500 }

def stC10post : DBState :=
  { users := [facW, stuW],
    slots := [{ slotW with isAvailable := false, updatedAt := 500 }],
    bookings := [bkC10], perms := [], nextId := 100 }

/-! Counterexamples and witnesses. -/

/-- C3 counterexample: a Confirmed booking whose slot started in the
past; cancel with force=true does not succeed — it fails with the
slot-in-past validation error, refuting the claim that force=true
cancels succeed regardless of now, including after start_time. -/
theorem C3_counterexample :
    findBookingL stC3c.bookings 80 = some bkPastConf ∧
    bkPastConf.status = BStatus.confirmed ∧
    findSlotL stC3c.slots 20 = some slotPastC ∧
    slotPastC.startTime < 5000 ∧
    cancel 5000 80 "faculty cancel" true stC3c = Except.error BErr.slotInPast := by
  refine ⟨by decide, by decide, by decide, by decide, ?_⟩
  decide

/-- C7 counterexample: FacultyBookingViewSet.complete is not idempotent;
the first call on a Confirmed booking succeeds, the second call on the
resulting state is rejected with an error. -/
theorem C7_counterexample :
    (viewsetComplete 700 1 60 stB).isOk = true ∧
    viewsetComplete 800 1 60 (runOp (viewsetComplete 700 1 60) stB).1 =
      Except.error BErr.invalidState := by
  constructor
  · decide
  · decide

/-- C9 counterexample: with the faculty external id configured and an
allowed subject, the grant endpoint rejects the call when the student
has no Absent booking for the subject, and no permission row is
created — refuting the unconditional upsert claim. -/
theorem C9_counterexample :
    (runOp (allowRebooking 500 1 2 "Web Development") stA).2 =
      Except.error BErr.studentNotAbsent ∧
    (runOp (allowRebooking 500 1 2 "Web Development") stA).1.perms.length = 0 := by
  constructor
  · decide
  · decide

theorem C1_witness :
    (create_booking 500 10 2 "T1" stC1w = Except.error BErr.absenceLocked ↔
      ¬ ValidPerm stC1w 2 (normalize_subject slotW.subject)
        (extIdOf stC1w.users slotW.facultyId)
        (absentBW.absentAt.getD absentBW.updatedAt)) :=
  C1_absence_lock stC1w 500 10 2 "T1" slotW stuW absentBW (by decide) (by decide)
    (by decide) (by decide) (by decide) (by decide) (by decide) (by decide)

theorem C2_witness :
    confirmedCount stB "T1" "Web Development" ≤ 1 ∧
    create_booking 500 12 3 "T1" stB = Except.error BErr.teamConflict := by
  have hinv : Inv stB :=
    ⟨by decide, by decide, by decide, by decide,
      fun g subj => Nat.le_trans (List.countP_le_length _) (by decide)⟩
  have hmain := C2_team_subject_exclusivity stB stB hinv (Reachable.refl stB)
  exact ⟨hmain.1 "T1" "Web Development",
    hmain.2 500 12 3 "T1" slot12W stu3W (by decide) (by decide) (by decide)
      (by decide) (by decide) (by decide)⟩

theorem C3_witness :
    ((cancel 95000 60 "r" false stB = Except.error BErr.cancellationWindow ↔
        slotW.startTime - 8 * 3600 ≤ 95000) ∧
      (slotW.startTime < 95000 →
        cancel 95000 60 "r" true stB = Except.error BErr.slotInPast) ∧
      (95000 ≤ slotW.startTime →
        ∃ st1, cancel 95000 60 "r" true stB = Except.ok (st1, cancelledRow 95000 "r" confirmedBW))) :=
  C3_cancel_window stB 95000 60 "r" confirmedBW slotW (by decide) (by decide)
    (by decide) (by decide)

theorem C4_witness :
    ((slotW.startTime ≤ 200000 →
        (apiCreate 200000 10 2 "T1" "T1" ["fac@example.com"] stA).1 = stA ∧
        ∃ e, (apiCreate 200000 10 2 "T1" "T1" ["fac@example.com"] stA).2 =
            Except.error e ∧
          (slotW.isAvailable = true → e = BErr.slotInPast)) ∧
      (200000 < slotW.startTime →
        ∀ e, (apiCreate 200000 10 2 "T1" "T1" ["fac@example.com"] stA).2 =
            Except.error e →
          e ≠ BErr.slotInPast)) :=
  C4_slot_in_past stA 200000 10 2 "T1" "T1" ["fac@example.com"] slotW (by decide)

theorem C5_witness :
    (bkC5.status = BStatus.confirmed ∧
      ∃ slot1, findSlotL stApost.slots bkC5.slotId = some slot1 ∧
        slot1.isAvailable = false) ∧
    (bkC5c.status = BStatus.cancelled ∧
      ∃ slot1, findSlotL stApost2.slots bkC5c.slotId = some slot1 ∧
        slot1.isAvailable = true) :=
  ⟨(C5_availability_toggle stA stApost 500 10 2 99 "T1" "r" false bkC5).1 (by decide),
    (C5_availability_toggle stApost stApost2 600 10 2 100 "T1" "r" false bkC5c).2 (by decide)⟩

theorem C6_witness : stA = stA ∧ stA = stA :=
  ⟨(C6_rollback_on_error stA stA 500 99 2 999 "T1" "r" false BErr.notFound).1 (by decide),
    (C6_rollback_on_error stA stA 500 99 2 999 "T1" "r" false BErr.notFound).2 (by decide)⟩

theorem C7_witness :
    (bkAbsW.status = BStatus.absent ∧
      markAbsent 800 1 60 stBabs = Except.ok (stBabs, bkAbsW)) ∧
    (bkCompW.status = BStatus.completed ∧
      markCompleted 800 1 60 stBcomp = Except.ok (stBcomp, bkCompW)) :=
  ⟨(C7_mark_idempotent stB 700 800 1 60).1 stBabs bkAbsW (by decide),
    (C7_mark_idempotent stB 700 800 1 60).2 stBcomp bkCompW (by decide)⟩

theorem C8_witness :
    bkAbsW.status = BStatus.absent ∧ bkAbsW.absentAt = some 700 ∧
    bkAbsW.id = confirmedBW.id ∧ stBabs.slots = stB.slots ∧
    ∀ sid slot, findSlotL stB.slots sid = some slot →
      findSlotL stBabs.slots sid = some slot :=
  C8_absent_keeps_slot stB stBabs 700 1 60 confirmedBW bkAbsW (by decide) (by decide)
    (by decide)

theorem C9_witness :
    permW.studentId = stuW.id ∧ permW.subject = normalize_subject "Web Development" ∧
    permW.teacherExternalId = facW.pblUserId ∧ permW.updatedAt = 3000 ∧
    stC9post.perms.countP (permKey stuW.id (normalize_subject "Web Development")) = 1 :=
  C9_grant_upsert stC1w stC9post 3000 1 2 "Web Development" facW stuW permW
    (by decide) (by decide) (by decide) (by decide) (by decide) (by decide)
    (by decide) (by decide)

theorem C10_witness :
    bkC10.id = cancelledBW.id ∧ bkC10.createdAt = cancelledBW.createdAt ∧
    bkC10.absentAt = cancelledBW.absentAt ∧ bkC10.studentId = 2 ∧
    bkC10.groupId = "T2" ∧ bkC10.status = BStatus.confirmed ∧
    bkC10.cancelledAt = none ∧ bkC10.cancellationReason = "" ∧
    bkC10.updatedAt = 500 ∧ stC10post.nextId = stC10w.nextId ∧
    stC10post.bookings.length = stC10w.bookings.length ∧
    stC10post.bookings = replaceBy Booking.id stC10w.bookings cancelledBW.id bkC10 :=
  C10_reuse_cancelled_row stC10w stC10post 500 10 2 "T2" slotW cancelledBW bkC10
    (by decide) (by decide) (by decide) (by decide)

end PBLNexus
